import Mathlib

/-!
# Verification of the webhook relay's normalization and upsert logic

Shallow embedding of the field-normalization and upsert code of the
webhook relay (src/server.js and the unnamed CommonJS variant), together
with theorems settling the spec claims about it.

JSON/JavaScript values are modelled by the inductive `JValue`.
JavaScript `undefined` is modelled by `Option.none` wherever a value can
be absent; `null` is the explicit `JValue.vNull`.  Numbers are modelled
as integers (the code never does arithmetic on payload values; numbers
only matter through truthiness and string conversion).  Property access
on non-objects yields `none`: this matches JavaScript for every property
name the code actually reads (none of them is `length`, a numeric index,
or another built-in own property of a primitive).
-/

set_option linter.unusedVariables false

/-- A JSON/JavaScript value as it appears in webhook payloads. -/
inductive JValue where
  | vStr (s : String)
  | vNum (n : Int)
  | vBool (b : Bool)
  | vNull
  | vArr (xs : List JValue)
  | vObj (fields : List (String × JValue))

mutual
/-- Structural equality test on values (SameValueZero restricted to JSON
trees; reference identity does not exist in this model). -/
def jvBeq : JValue → JValue → Bool
  | .vStr a, .vStr b => a == b
  | .vNum a, .vNum b => a == b
  | .vBool a, .vBool b => a == b
  | .vNull, .vNull => true
  | .vArr a, .vArr b => jvBeqList a b
  | .vObj a, .vObj b => jvBeqFields a b
  | _, _ => false

/-- Elementwise equality test on value lists. -/
def jvBeqList : List JValue → List JValue → Bool
  | [], [] => true
  | x :: xs, y :: ys => jvBeq x y && jvBeqList xs ys
  | _, _ => false

/-- Elementwise equality test on field lists. -/
def jvBeqFields : List (String × JValue) → List (String × JValue) → Bool
  | [], [] => true
  | (k, v) :: xs, (k', v') :: ys => k == k' && jvBeq v v' && jvBeqFields xs ys
  | _, _ => false
end

mutual
def jvBeq_refl : ∀ a, jvBeq a a = true
  | .vStr _ => by simp [jvBeq]
  | .vNum _ => by simp [jvBeq]
  | .vBool _ => by simp [jvBeq]
  | .vNull => by simp [jvBeq]
  | .vArr xs => by simp [jvBeq, jvBeqList_refl xs]
  | .vObj fs => by simp [jvBeq, jvBeqFields_refl fs]

def jvBeqList_refl : ∀ xs, jvBeqList xs xs = true
  | [] => by simp [jvBeqList]
  | x :: xs => by simp [jvBeqList, jvBeq_refl x, jvBeqList_refl xs]

def jvBeqFields_refl : ∀ fs, jvBeqFields fs fs = true
  | [] => by simp [jvBeqFields]
  | (k, v) :: fs => by simp [jvBeqFields, jvBeq_refl v, jvBeqFields_refl fs]
end

mutual
def eq_of_jvBeq : ∀ a b, jvBeq a b = true → a = b
  | .vStr a, .vStr b, h => by
    have : a = b := by simpa [jvBeq] using h
    rw [this]
  | .vNum a, .vNum b, h => by
    have : a = b := by simpa [jvBeq] using h
    rw [this]
  | .vBool a, .vBool b, h => by
    have : a = b := by simpa [jvBeq] using h
    rw [this]
  | .vNull, .vNull, _ => rfl
  | .vArr a, .vArr b, h => congrArg JValue.vArr (eq_of_jvBeqList a b (by simpa [jvBeq] using h))
  | .vObj a, .vObj b, h => congrArg JValue.vObj (eq_of_jvBeqFields a b (by simpa [jvBeq] using h))
  | .vStr _, .vNum _, h | .vStr _, .vBool _, h | .vStr _, .vNull, h
  | .vStr _, .vArr _, h | .vStr _, .vObj _, h
  | .vNum _, .vStr _, h | .vNum _, .vBool _, h | .vNum _, .vNull, h
  | .vNum _, .vArr _, h | .vNum _, .vObj _, h
  | .vBool _, .vStr _, h | .vBool _, .vNum _, h | .vBool _, .vNull, h
  | .vBool _, .vArr _, h | .vBool _, .vObj _, h
  | .vNull, .vStr _, h | .vNull, .vNum _, h | .vNull, .vBool _, h
  | .vNull, .vArr _, h | .vNull, .vObj _, h
  | .vArr _, .vStr _, h | .vArr _, .vNum _, h | .vArr _, .vBool _, h
  | .vArr _, .vNull, h | .vArr _, .vObj _, h
  | .vObj _, .vStr _, h | .vObj _, .vNum _, h | .vObj _, .vBool _, h
  | .vObj _, .vNull, h | .vObj _, .vArr _, h => by simp [jvBeq] at h

def eq_of_jvBeqList : ∀ as bs, jvBeqList as bs = true → as = bs
  | [], [], _ => rfl
  | x :: xs, y :: ys, h => by
    have h' : jvBeq x y = true ∧ jvBeqList xs ys = true := by simpa [jvBeqList] using h
    rw [eq_of_jvBeq x y h'.1, eq_of_jvBeqList xs ys h'.2]
  | [], _ :: _, h => by simp [jvBeqList] at h
  | _ :: _, [], h => by simp [jvBeqList] at h

def eq_of_jvBeqFields : ∀ as bs, jvBeqFields as bs = true → as = bs
  | [], [], _ => rfl
  | (k, v) :: xs, (k', v') :: ys, h => by
    have h' : (k = k' ∧ jvBeq v v' = true) ∧ jvBeqFields xs ys = true := by
      simpa [jvBeqFields, and_assoc] using h
    rw [h'.1.1, eq_of_jvBeq v v' h'.1.2, eq_of_jvBeqFields xs ys h'.2]
  | [], _ :: _, h => by simp [jvBeqFields] at h
  | _ :: _, [], h => by simp [jvBeqFields] at h
end

instance : DecidableEq JValue := fun a b =>
  if h : jvBeq a b = true then isTrue (eq_of_jvBeq a b h)
  else isFalse (fun he => h (he ▸ jvBeq_refl a))

/-- JavaScript truthiness of a value ("" , 0, false, null are falsy). -/
def jsTruthy : JValue → Bool
  | .vStr s => s ≠ ""
  | .vNum n => n ≠ 0
  | .vBool b => b
  | .vNull => false
  | .vArr _ => true
  | .vObj _ => true

/-- Truthiness of a possibly-undefined value (`undefined` is falsy). -/
def optTruthy : Option JValue → Bool
  | some v => jsTruthy v
  | none => false

/-- The whitespace characters removed by JavaScript's String.prototype.trim
(ASCII whitespace; the exotic Unicode space characters never occur in the
payloads or literals of this program). -/
def jsIsWhitespace (c : Char) : Bool :=
  c = ' ' ∨ c = '\t' ∨ c = '\n' ∨ c = '\r' ∨ c = '\x0b' ∨ c = '\x0c'

/-- JavaScript String.prototype.trim: drop whitespace from both ends. -/
def jsTrim (s : String) : String :=
  ⟨(((s.data.dropWhile jsIsWhitespace).reverse).dropWhile jsIsWhitespace).reverse⟩

/-- Split a character list at every occurrence of the separator character
(JavaScript String.prototype.split with a one-character separator; the
program only ever splits on "," and "."). -/
def splitChar (sep : Char) : List Char → List (List Char)
  | [] => [[]]
  | c :: rest =>
    match splitChar sep rest with
    | [] => [[c]]
    | h :: t => if c = sep then [] :: h :: t else (c :: h) :: t

/-- JavaScript s.split(sep) for a one-character separator. -/
def jsSplit (sep : Char) (s : String) : List String :=
  (splitChar sep s.data).map (fun cs => ⟨cs⟩)

mutual
/-- JavaScript String(v) conversion for the values of this model.
Arrays stringify as their elements joined by "," (with null as the empty
string), objects as "[object Object]". -/
def jsToString : JValue → String
  | .vStr s => s
  | .vNum n => toString n
  | .vBool b => if b then "true" else "false"
  | .vNull => "null"
  | .vArr xs => jsToStringList xs
  | .vObj _ => "[object Object]"

/-- Array.prototype.toString: join the stringified elements with ",". -/
def jsToStringList : List JValue → String
  | [] => ""
  | [x] => match x with | .vNull => "" | v => jsToString v
  | x :: xs => (match x with | .vNull => "" | v => jsToString v) ++ "," ++ jsToStringList xs
end

/-- First-match lookup of an own property in an object's field list
(JSON objects have distinct keys, so first-match agrees with JavaScript). -/
def lookupField : List (String × JValue) → String → Option JValue
  | [], _ => none
  | (k', v) :: rest, k => if k = k' then some v else lookupField rest k

/-- JavaScript o[k] for the property names this program reads:
defined only on objects, `none` (undefined) otherwise. -/
def jsGetField : JValue → String → Option JValue
  | .vObj fs, k => lookupField fs k
  | _, _ => none

/-- Object.entries, as iterated by the tag-extraction loop.  The handlers
only ever call it on JSON objects; non-objects contribute no entries. -/
def jsEntries : JValue → List (String × JValue)
  | .vObj fs => fs
  | _ => []

/-- One step of the path walk in pick:
(o, k) => (o && o[k] !== undefined ? o[k] : undefined). -/
def getPathStep (o : Option JValue) (k : String) : Option JValue :=
  match o with
  | some v => if jsTruthy v then jsGetField v k else none
  | none => none

/-- p.split('.').reduce((o, k) => (o && o[k] !== undefined ? o[k] : undefined), payload) -/
def getPath (payload : JValue) (path : String) : Option JValue :=
  (jsSplit '.' path).foldl getPathStep (some payload)

/-- pick(payload, ...paths) from src/server.js: walk each dotted path in
order and return the first value that is defined, non-null and not
whitespace-only in its string form. -/
def pick (payload : JValue) : List String → Option JValue
  | [] => none
  | p :: ps =>
    match getPath payload p with
    | some v => if v ≠ JValue.vNull ∧ jsTrim (jsToString v) ≠ "" then some v else pick payload ps
    | none => pick payload ps

/-- ensureArrayTags from src/server.js: arrays pass through verbatim, a
string is split on ",", trimmed and stripped of empty pieces, anything
else (including undefined) becomes the empty list. -/
def ensureArrayTags : Option JValue → List JValue
  | some (.vArr xs) => xs
  | some (.vStr s) =>
    ((((jsSplit ',' s).map jsTrim).filter (fun t => t ≠ ""))).map JValue.vStr
  | _ => []

/-- The tag-extraction loop of buildContactPayload: for every top-level
entry [k, v] of the payload with a truthy value whose key matches the
caller-supplied pattern, push String(v).trim() as a tag.  The regex is
modelled extensionally as a Boolean key test. -/
def extractedTags (payload : JValue) (test : String → Bool) : List JValue :=
  ((jsEntries payload).filter (fun kv => jsTruthy kv.2 && test kv.1)).map
    (fun kv => JValue.vStr (jsTrim (jsToString kv.2)))

/-- The tag list of buildContactPayload before default tags are prepended:
ensureArrayTags of the picked tags value, followed by the pattern
extraction when a pattern is supplied. -/
def discoveredTags (payload : JValue) (tagFromKeysRegex : Option (String → Bool)) : List JValue :=
  ensureArrayTags (pick payload ["tags", "contact.tags"]) ++
    (match tagFromKeysRegex with
     | some test => extractedTags payload test
     | none => [])

/-- The prepend loop of buildContactPayload: walk defaultTags from the
last entry to the first and unshift each one that the current list does
not already contain. -/
def prependDefaults (defaultTags : List String) (tags : List JValue) : List JValue :=
  defaultTags.foldr
    (fun d acc => if JValue.vStr d ∈ acc then acc else JValue.vStr d :: acc) tags

/-- SameValueZero, the equality a JavaScript Set applies to its members:
value equality on primitives (strings, numbers, booleans, null), and
reference identity on arrays and objects.  Every array or object in the
tag list comes verbatim from a freshly JSON-parsed payload, so no two
list positions can alias and two non-primitive entries are never equal,
not even when they are structurally identical. -/
def jsSameValueZero (a b : JValue) : Bool :=
  match a, b with
  | .vStr x, .vStr y => x == y
  | .vNum x, .vNum y => x == y
  | .vBool x, .vBool y => x == y
  | .vNull, .vNull => true
  | _, _ => false

/-- Set membership test under SameValueZero. -/
def svzMem (x : JValue) (l : List JValue) : Bool :=
  l.any (fun y => jsSameValueZero x y)

/-- Iteration order of [...new Set(l)]: keep the first occurrence of every
element under SameValueZero, tracked by the accumulated set of elements
already seen (non-primitive entries are therefore always kept). -/
def dedupFirstAux (seen : List JValue) : List JValue → List JValue
  | [] => []
  | x :: xs =>
    if svzMem x seen then dedupFirstAux seen xs
    else x :: dedupFirstAux (x :: seen) xs

/-- [...new Set(l)]: deduplicate preserving first-occurrence order, with
the Set's SameValueZero member equality. -/
def dedupFirst (l : List JValue) : List JValue :=
  dedupFirstAux [] l

/-- The complete tags pipeline of buildContactPayload:
tags = [...new Set(prepended)].filter(Boolean). -/
def collectTags (payload : JValue) (defaultTags : List String)
    (tagFromKeysRegex : Option (String → Bool)) : List JValue :=
  (dedupFirst (prependDefaults defaultTags (discoveredTags payload tagFromKeysRegex))).filter
    jsTruthy

/-- The LeadConnector contact object assembled by buildContactPayload.
A field is `none` exactly when the source omits the key. -/
structure Contact where
  email : Option JValue
  phone : Option JValue
  firstName : Option JValue
  lastName : Option JValue
  tags : Option (List JValue)
  locationId : Option String
deriving DecidableEq

/-- if (x) contact.field = x — keep a resolved value only when truthy. -/
def keepTruthy : Option JValue → Option JValue
  | some v => if jsTruthy v then some v else none
  | none => none

/-- buildContactPayload from src/server.js: resolve each contact field
through its alias list, build the tag list, then emit only truthy fields
(tags only when non-empty, locationId only when a truthy string). -/
def buildContactPayload (payload : JValue) (defaultTags : List String := [])
    (locationId : Option String := none)
    (tagFromKeysRegex : Option (String → Bool) := none) : Contact :=
  let tags := collectTags payload defaultTags tagFromKeysRegex
  { email := keepTruthy (pick payload ["email", "contact.email", "contact.email_address"])
    phone := keepTruthy (pick payload ["phone", "contact.phone", "contact.phone_number"])
    firstName := keepTruthy (pick payload
      ["firstName", "firstname", "first_name", "contact.first_name", "contact.firstname"])
    lastName := keepTruthy (pick payload
      ["lastName", "lastname", "last_name", "contact.last_name", "contact.lastname"])
    tags := if tags.isEmpty then none else some tags
    locationId := match locationId with
      | some s => if s ≠ "" then some s else none
      | none => none }

/-- A present field of the JSON object a Contact serializes to. -/
def optField (k : String) : Option JValue → List (String × JValue)
  | some v => [(k, v)]
  | none => []

/-- The JSON object a Contact becomes when logged and re-submitted:
exactly the fields buildContactPayload set, in insertion order. -/
def contactToJValue (c : Contact) : JValue :=
  .vObj (optField "email" c.email ++ (optField "phone" c.phone ++
    (optField "firstName" c.firstName ++ (optField "lastName" c.lastName ++
    (optField "tags" (c.tags.map JValue.vArr) ++
    optField "locationId" (c.locationId.map JValue.vStr))))))

/-- ASCII lower-casing of one character, for the /i regex flag. -/
def lowerChar (c : Char) : Char :=
  match c with
  | 'A' => 'a' | 'B' => 'b' | 'C' => 'c' | 'D' => 'd' | 'E' => 'e' | 'F' => 'f'
  | 'G' => 'g' | 'H' => 'h' | 'I' => 'i' | 'J' => 'j' | 'K' => 'k' | 'L' => 'l'
  | 'M' => 'm' | 'N' => 'n' | 'O' => 'o' | 'P' => 'p' | 'Q' => 'q' | 'R' => 'r'
  | 'S' => 's' | 'T' => 't' | 'U' => 'u' | 'V' => 'v' | 'W' => 'w' | 'X' => 'x'
  | 'Y' => 'y' | 'Z' => 'z' | c => c

/-- Does the (already lower-case) pattern start the lower-cased text? -/
def matchPrefixCI : List Char → List Char → Bool
  | [], _ => true
  | _ :: _, [] => false
  | p :: ps, c :: cs => (lowerChar c = p) && matchPrefixCI ps cs

/-- Case-insensitive substring containment. -/
def containsCI (pat : List Char) : List Char → Bool
  | [] => pat.isEmpty
  | c :: cs => matchPrefixCI pat (c :: cs) || containsCI pat cs

/-- The key test of the literal /competency_coach/i: case-insensitive
substring match of "competency_coach". -/
def competencyCoachTest (k : String) : Bool :=
  containsCI "competency_coach".data k.data

/-- req.body && req.body.secret, collapsed to the body's secret field
when the body is truthy.  A falsy result is never accepted by the
comparison below, so falsy/undefined are conflated into `none`. -/
def bodySecret (payload : JValue) : Option JValue :=
  if jsTruthy payload then jsGetField payload "secret" else none

/-- The query-or-body part of the || chain of assertSharedSecret. -/
def incomingSecretQ (query : Option String) (payload : JValue) : Option JValue :=
  match query with
  | some q =>
    if q ≠ "" then some (.vStr q)
    else match bodySecret payload with
      | some v => if jsTruthy v then some v else none
      | none => none
  | none => match bodySecret payload with
    | some v => if jsTruthy v then some v else none
    | none => none

/-- The incoming secret actually compared by assertSharedSecret:
req.headers['x-shared-secret'] || req.query.secret || (req.body && req.body.secret),
i.e. the first truthy value among the three sources (header and query
values are strings when present). -/
def incomingSecret (header query : Option String) (payload : JValue) : Option JValue :=
  match header with
  | some h => if h ≠ "" then some (.vStr h) else incomingSecretQ query payload
  | none => incomingSecretQ query payload

/-- assertSharedSecret from src/server.js: enforce only when the
configured SHARED_SECRET env value is truthy; accept when the first
truthy incoming secret stringifies to the configured value. -/
def assertSharedSecret (configured : Option String) (header query : Option String)
    (payload : JValue) : Bool :=
  match configured with
  | none => true
  | some c =>
    if c = "" then true
    else match incomingSecret header query payload with
      | some v => jsToString v = c
      | none => false

/-- Outcome of one webhook request: the HTTP status sent and the list of
contacts posted to the destination platform (in order). -/
structure HandlerResult (α : Type) where
  status : Nat
  outbound : List α
deriving DecidableEq

/-- The POST /webhook handler of src/server.js (Account A; the /webhook2,
/webhook3 and /webhook/new-ghl-account handlers differ only in
credentials and log file names): shared-secret gate, buildContactPayload
with the "From Account A" default tag and the /competency_coach/i
pattern, 400 without an outbound call when neither email nor phone was
kept, otherwise one outbound upsert whose success (200) or failure (500)
is decided by the remote platform, modelled as the oracle `remote`. -/
def handleWebhookA (sharedSecret header query : Option String) (locId : Option String)
    (remote : Contact → Bool) (payload : JValue) : HandlerResult Contact :=
  if assertSharedSecret sharedSecret header query payload = false then ⟨401, []⟩
  else
    let contact := buildContactPayload payload ["From Account A"] locId
      (some competencyCoachTest)
    if contact.email = none ∧ contact.phone = none then ⟨400, []⟩
    else if remote contact then ⟨200, [contact]⟩ else ⟨500, [contact]⟩

/-- JavaScript a || b on possibly-undefined values: the first operand when
truthy, otherwise the second operand verbatim. -/
def jsOr (a b : Option JValue) : Option JValue :=
  match a with
  | some v => if jsTruthy v then some v else b
  | none => b

/-- The contact shape of buildGhlContact (the unnamed variant's
normalizer): every key is always present, values may be undefined. -/
structure GhlContact where
  email : Option JValue
  phone : Option JValue
  firstName : Option JValue
  lastName : Option JValue
  tags : List JValue
deriving DecidableEq

/-- The tags field of buildGhlContact: an array passes verbatim, any
other truthy value is stringified, split on ",", trimmed and stripped of
empty pieces, and anything falsy becomes the empty list. -/
def ghlTags (payload : JValue) : List JValue :=
  match jsGetField payload "tags" with
  | some (.vArr xs) => xs
  | some v =>
    if jsTruthy v then
      (((jsSplit ',' (jsToString v)).map jsTrim).filter (fun t => t ≠ "")).map JValue.vStr
    else []
  | none => []

/-- buildGhlContact from src/unnamed/part_000: || alias chains over flat
and contact-nested keys, with the tags normalization above. -/
def buildGhlContact (payload : JValue) : GhlContact :=
  { email := jsOr (jsGetField payload "email") (getPath payload "contact.email")
    phone := jsOr (jsGetField payload "phone") (getPath payload "contact.phone")
    firstName := jsOr (jsGetField payload "firstName")
      (jsOr (jsGetField payload "firstname")
        (jsOr (getPath payload "contact.first_name") (getPath payload "contact.firstname")))
    lastName := jsOr (jsGetField payload "lastName")
      (jsOr (jsGetField payload "lastname")
        (jsOr (getPath payload "contact.last_name") (getPath payload "contact.lastname")))
    tags := ghlTags payload }

/-- The POST /webhook handler of src/unnamed/part_000 (no shared-secret
gate in that variant): 400 without an outbound call when neither email
nor phone is truthy, otherwise one outbound upsert judged by the remote
oracle. -/
def handleWebhookP0 (remote : GhlContact → Bool) (payload : JValue) :
    HandlerResult GhlContact :=
  let contact := buildGhlContact payload
  if optTruthy contact.email = false ∧ optTruthy contact.phone = false then ⟨400, []⟩
  else if remote contact then ⟨200, [contact]⟩ else ⟨500, [contact]⟩

/-- JavaScript a ?? b: the first operand unless it is null or undefined. -/
def jsCoalesce (a : Option JValue) (b : JValue) : JValue :=
  match a with
  | some .vNull => b
  | some v => v
  | none => b

/-- The HubSpot contact properties object built by normalizeHubSpotContact:
email is passed through verbatim (possibly undefined), every other
property defaults to the empty string. -/
structure HSContact where
  email : Option JValue
  firstname : JValue
  lastname : JValue
  phone : JValue
  source : JValue
  investor_archetype_ppt_frequency : JValue
  investor_archetype_ppt_profile : JValue
  investor_archetype_free_ppt_frequency : JValue
deriving DecidableEq

/-- normalizeHubSpotContact from src/unnamed/part_000 (identical in the
second src/server.js variant). -/
def normalizeHubSpotContact (raw : JValue) : HSContact :=
  { email := jsGetField raw "email"
    firstname := jsCoalesce (jsGetField raw "firstname")
      (jsCoalesce (jsGetField raw "firstName") (.vStr ""))
    lastname := jsCoalesce (jsGetField raw "lastname")
      (jsCoalesce (jsGetField raw "lastName") (.vStr ""))
    phone := jsCoalesce (jsGetField raw "phone") (.vStr "")
    source := jsCoalesce (jsGetField raw "source") (.vStr "")
    investor_archetype_ppt_frequency :=
      jsCoalesce (jsGetField raw "investor_archetype_ppt_frequency") (.vStr "")
    investor_archetype_ppt_profile :=
      jsCoalesce (jsGetField raw "investor_archetype_ppt_profile") (.vStr "")
    investor_archetype_free_ppt_frequency :=
      jsCoalesce (jsGetField raw "investor_archetype_free_ppt_frequency") (.vStr "") }

/-- The properties object literal of normalizeHubSpotContact as an ordered
key/value list; Object.keys of the result is the map of Prod.fst.  The
email key exists even when its value is undefined. -/
def hsPropertyList (c : HSContact) : List (String × Option JValue) :=
  [("email", c.email),
   ("firstname", some c.firstname),
   ("lastname", some c.lastname),
   ("phone", some c.phone),
   ("source", some c.source),
   ("investor_archetype_ppt_frequency", some c.investor_archetype_ppt_frequency),
   ("investor_archetype_ppt_profile", some c.investor_archetype_ppt_profile),
   ("investor_archetype_free_ppt_frequency", some c.investor_archetype_free_ppt_frequency)]

/-- The OperatingFrame HubSpot properties object: Source defaults to
"GHL Survey", the other non-email properties default to the empty string. -/
structure HSContactOF where
  email : Option JValue
  firstname : JValue
  lastname : JValue
  phone : JValue
  Source : JValue
  FreeOperatingFrameFrequency : JValue
  FreeOperatingFrameTest : JValue
deriving DecidableEq

/-- The nested fallback object of the OperatingFrame normalizer:
c = raw.contact ?? raw. -/
def ofContactBase (raw : JValue) : JValue :=
  match jsGetField raw "contact" with
  | some .vNull => raw
  | some v => v
  | none => raw

/-- normalizeHubSpotContactOperatingFrame from src/unnamed/part_000,
with c = raw.contact ?? raw as the nested fallback object. -/
def normalizeHubSpotContactOperatingFrame (raw : JValue) : HSContactOF :=
  let c := ofContactBase raw
  { email := match jsGetField raw "email" with
      | some .vNull => jsGetField c "email"
      | some v => some v
      | none => jsGetField c "email"
    firstname := jsCoalesce (jsGetField raw "firstname")
      (jsCoalesce (jsGetField raw "firstName")
        (jsCoalesce (jsGetField c "first_name")
          (jsCoalesce (jsGetField c "firstname") (.vStr ""))))
    lastname := jsCoalesce (jsGetField raw "lastname")
      (jsCoalesce (jsGetField raw "lastName")
        (jsCoalesce (jsGetField c "last_name")
          (jsCoalesce (jsGetField c "lastname") (.vStr ""))))
    phone := jsCoalesce (jsGetField raw "phone")
      (jsCoalesce (jsGetField c "phone") (.vStr ""))
    Source := jsCoalesce (jsGetField raw "source")
      (jsCoalesce (jsGetField c "source") (.vStr "GHL Survey"))
    FreeOperatingFrameFrequency := jsCoalesce (jsGetField raw "free_operatingframe_frequency")
      (jsCoalesce (jsGetField c "free_operatingframe_frequency")
        (jsCoalesce (jsGetField raw "FreeOperatingFrameFrequency")
          (jsCoalesce (jsGetField c "FreeOperatingFrameFrequency") (.vStr ""))))
    FreeOperatingFrameTest := jsCoalesce (jsGetField raw "free_operatingframe_test")
      (jsCoalesce (jsGetField c "free_operatingframe_test")
        (jsCoalesce (jsGetField raw "FreeOperatingFrameTest")
          (jsCoalesce (jsGetField c "FreeOperatingFrameTest") (.vStr ""))))
  }

/-- The OperatingFrame properties object as an ordered key/value list. -/
def hsPropertyListOF (c : HSContactOF) : List (String × Option JValue) :=
  [("email", c.email),
   ("firstname", some c.firstname),
   ("lastname", some c.lastname),
   ("phone", some c.phone),
   ("Source", some c.Source),
   ("FreeOperatingFrameFrequency", some c.FreeOperatingFrameFrequency),
   ("FreeOperatingFrameTest", some c.FreeOperatingFrameTest)]

/-- One outbound HubSpot API call of the single-contact upsert flow. -/
inductive HsCall where
  | search (emailValue : JValue) (props : List String) (limit : Nat)
  | update (id : String) (props : List (String × Option JValue))
  | create (props : List (String × Option JValue))
deriving DecidableEq

/-- The remote HubSpot portal, modelled as an oracle: what the search
endpoint finds for a given email value, and the id a create call assigns. -/
structure HsRemote where
  found : JValue → Option String
  newId : String

/-- Outcome of the single-contact upsert handler: HTTP status, the status
label and id of the JSON response, and the outbound calls in order. -/
structure UpsertOutcome where
  httpStatus : Nat
  statusLabel : Option String
  id : Option String
  calls : List HsCall
deriving DecidableEq

/-- The POST /webhook/ghl-to-hubspot handler of src/unnamed/part_000
(line-identical in the second src/server.js variant): normalize
req.body || {}, reject 400 without email, search by exact-match email
with Object.keys(properties) and limit 1, then patch the found record
(status "updated") or create a new one (status "created"). -/
def handleGhlToHubspot (remote : HsRemote) (body : JValue) : UpsertOutcome :=
  let properties := normalizeHubSpotContact (if jsTruthy body then body else .vObj [])
  if optTruthy properties.email = false then ⟨400, none, none, []⟩
  else
    let emailVal := properties.email.getD .vNull
    let searchCall := HsCall.search emailVal ((hsPropertyList properties).map Prod.fst) 1
    match remote.found emailVal with
    | some id =>
      ⟨200, some "updated", some id, [searchCall, .update id (hsPropertyList properties)]⟩
    | none =>
      ⟨200, some "created", some remote.newId,
        [searchCall, .create (hsPropertyList properties)]⟩

/-- chunk from the batch handler:
arr.reduce((a, _, i) => (i % size ? a : [...a, arr.slice(i, i + size)]), []). -/
def chunk {α : Type} (arr : List α) (size : Nat) : List (List α) :=
  (List.range arr.length).foldl
    (fun a i => if i % size ≠ 0 then a else a ++ [(arr.drop i).take size]) []

/-- The inputs array of one batch upsert call: each contact becomes
{ idProperty: 'email', properties: normalizeHubSpotContact(c) }. -/
def batchInputsOf (group : List JValue) : List (String × List (String × Option JValue)) :=
  group.map (fun c => ("email", hsPropertyList (normalizeHubSpotContact c)))

/-- The sequential await loop over the chunks: one batch/upsert call per
group, stopping at (and including) the first failing call.  The second
component tells whether every call succeeded; `ok` is the remote oracle. -/
def issueBatches (ok : List (String × List (String × Option JValue)) → Bool) :
    List (List JValue) → List (List (String × List (String × Option JValue))) × Bool
  | [] => ([], true)
  | g :: rest =>
    let inputs := batchInputsOf g
    if ok inputs then
      let r := issueBatches ok rest
      (inputs :: r.1, r.2)
    else ([inputs], false)

/-- The POST /webhook/ghl-to-hubspot-batch handler: contacts[] from the
body (non-arrays become empty), 400 without calls when empty, otherwise
the chunked sequential upsert loop; 200 when every group call succeeded,
500 as soon as one failed. -/
def handleGhlToHubspotBatch (ok : List (String × List (String × Option JValue)) → Bool)
    (body : JValue) : HandlerResult (List (String × List (String × Option JValue))) :=
  let items := match jsGetField body "contacts" with
    | some (.vArr l) => l
    | _ => []
  if items.isEmpty then ⟨400, []⟩
  else
    let r := issueBatches ok (chunk items 100)
    ⟨if r.2 then 200 else 500, r.1⟩

/-- The acceptance filter pick applies to one resolved path value:
defined, non-null, and not whitespace-only in string form. -/
def pickAccept : Option JValue → Option JValue
  | some v => if v ≠ JValue.vNull ∧ jsTrim (jsToString v) ≠ "" then some v else none
  | none => none

/-- Modelled from the spec's words (for comparison with the code's tag
pipeline): "prepends defaultTags ahead of any discovered tags, preserving
defaultTags' own relative order, then deduplicates the combined sequence
while preserving first-occurrence order, then drops any empty strings". -/
def specCombineTags (defaultTags : List String) (discovered : List JValue) : List JValue :=
  (dedupFirst ((defaultTags.map JValue.vStr) ++ discovered)).filter jsTruthy

/-!
## Helper lemmas
-/

theorem dropWhile_dropWhile {α : Type} (p : α → Bool) (l : List α) :
    (l.dropWhile p).dropWhile p = l.dropWhile p := by
  induction l with
  | nil => rfl
  | cons c rest ih =>
    by_cases hc : p c
    · simp [List.dropWhile_cons, hc, ih]
    · simp [List.dropWhile_cons, hc]

theorem dropWhile_head_false {α : Type} (p : α → Bool) :
    ∀ (l : List α) (c : α) (cs : List α), l.dropWhile p = c :: cs → p c = false := by
  intro l
  induction l with
  | nil => intro c cs h; simp at h
  | cons a as ih =>
    intro c cs h
    by_cases ha : p a
    · rw [List.dropWhile_cons, if_pos ha] at h; exact ih c cs h
    · rw [List.dropWhile_cons, if_neg ha] at h
      cases h; simpa using ha

theorem dropWhile_eq_self_of_head {α : Type} (p : α → Bool) (c : α) (cs : List α)
    (h : p c = false) : (c :: cs).dropWhile p = c :: cs := by
  simp [List.dropWhile_cons, h]

theorem jsTrim_idem (s : String) : jsTrim (jsTrim s) = jsTrim s := by
  unfold jsTrim
  cases s with
  | mk l =>
    simp only
    set w := jsIsWhitespace with hw
    set m := l.dropWhile w with hm
    set y := m.reverse.dropWhile w with hy
    have step1 : y.reverse.dropWhile w = y.reverse := by
      cases hcase : y.reverse with
      | nil => rfl
      | cons c cs =>
        have hylast : y.getLast? = some c := by
          rw [← List.head?_reverse, hcase]; rfl
        have hmc : m.head? = some c := by
          have hsfx : y <:+ m.reverse := hy ▸ List.dropWhile_suffix w
          rcases hsfx with ⟨pre, hpre⟩
          have hyne : y ≠ [] := by
            intro hnil; rw [hnil] at hcase; simp at hcase
          have : m.reverse.getLast? = some c := by
            rw [← hpre, List.getLast?_append_of_ne_nil pre hyne, hylast]
          rw [← List.getLast?_reverse, this]
        have hfc : w c = false := by
          cases hmc2 : m with
          | nil => rw [hmc2] at hmc; simp at hmc
          | cons a as =>
            have hac : a = c := by rw [hmc2] at hmc; simpa using hmc
            have := dropWhile_head_false w l a as (hm ▸ hmc2)
            rw [← hac]; exact this
        exact dropWhile_eq_self_of_head w c cs hfc
    rw [step1, List.reverse_reverse, hy, dropWhile_dropWhile]

theorem string_data_append (s t : String) : (s ++ t).data = s.data ++ t.data := rfl

theorem jsTrim_eq_empty_of_all (s : String)
    (h : ∀ c ∈ s.data, jsIsWhitespace c = true) : jsTrim s = "" := by
  unfold jsTrim
  have h1 : s.data.dropWhile jsIsWhitespace = [] := List.dropWhile_eq_nil_iff.mpr h
  rw [h1]
  rfl

theorem jsTrim_ne_empty (s : String) (c : Char) (hc : c ∈ s.data)
    (hw : jsIsWhitespace c = false) : jsTrim s ≠ "" := by
  intro hcon
  have hdata : (((s.data.dropWhile jsIsWhitespace).reverse).dropWhile
      jsIsWhitespace).reverse = [] := congrArg String.data hcon
  have h2 : ((s.data.dropWhile jsIsWhitespace).reverse).dropWhile jsIsWhitespace = [] := by
    simpa using hdata
  have h3 : ∀ x ∈ (s.data.dropWhile jsIsWhitespace).reverse, jsIsWhitespace x = true :=
    List.dropWhile_eq_nil_iff.mp h2
  have h4 : ∀ x ∈ s.data.dropWhile jsIsWhitespace, jsIsWhitespace x = true := by
    intro x hx; exact h3 x (List.mem_reverse.mpr hx)
  have h5 : ∀ x ∈ s.data, jsIsWhitespace x = true := by
    intro x hx
    rw [← List.takeWhile_append_dropWhile (p := jsIsWhitespace) (l := s.data)] at hx
    rcases List.mem_append.mp hx with h | h
    · exact List.mem_takeWhile_imp h
    · exact h4 x h
  rw [h5 c hc] at hw
  cases hw

theorem exists_nonws_of_trimStable (s : String) (hst : jsTrim s = s) (hne : s ≠ "") :
    ∃ c ∈ s.data, jsIsWhitespace c = false := by
  by_contra hall
  push_neg at hall
  have : ∀ c ∈ s.data, jsIsWhitespace c = true := by
    intro c hc
    cases h : jsIsWhitespace c with
    | false => exact absurd h (hall c hc)
    | true => rfl
  exact hne (hst ▸ jsTrim_eq_empty_of_all s this)

theorem pick_some_spec (payload : JValue) :
    ∀ (paths : List String) (v : JValue), pick payload paths = some v →
      v ≠ JValue.vNull ∧ jsTrim (jsToString v) ≠ "" := by
  intro paths
  induction paths with
  | nil => intro v h; simp [pick] at h
  | cons p ps ih =>
    intro v h
    rw [pick] at h
    cases hg : getPath payload p with
    | none => rw [hg] at h; exact ih v h
    | some u =>
      rw [hg] at h
      have h2 : (if u ≠ JValue.vNull ∧ jsTrim (jsToString u) ≠ "" then some u
          else pick payload ps) = some v := h
      by_cases hu : u ≠ JValue.vNull ∧ jsTrim (jsToString u) ≠ ""
      · rw [if_pos hu] at h2
        cases h2; exact hu
      · rw [if_neg hu] at h2; exact ih v h2

theorem pick_eq_findSome (payload : JValue) (paths : List String) :
    pick payload paths = paths.findSome? (fun p => pickAccept (getPath payload p)) := by
  induction paths with
  | nil => rfl
  | cons p ps ih =>
    rw [pick, List.findSome?_cons]
    cases hg : getPath payload p with
    | none => simpa [pickAccept] using ih
    | some u =>
      by_cases hu : u ≠ JValue.vNull ∧ jsTrim (jsToString u) ≠ ""
      · simp [pickAccept, hu]
      · simpa [pickAccept, hu] using ih

theorem svz_eq (a b : JValue) (h : jsSameValueZero a b = true) : a = b := by
  cases a <;> cases b <;> simp_all [jsSameValueZero]

theorem svz_false_symm (a b : JValue) (h : jsSameValueZero a b = false) :
    jsSameValueZero b a = false := by
  cases hc : jsSameValueZero b a with
  | false => rfl
  | true =>
    have he := svz_eq b a hc
    subst he
    rw [hc] at h
    cases h

theorem svzMem_nil (x : JValue) : svzMem x [] = false := rfl

theorem svzMem_cons (x y : JValue) (l : List JValue) :
    svzMem x (y :: l) = (jsSameValueZero x y || svzMem x l) := by
  simp [svzMem]

theorem mem_dedupFirstAux (x : JValue) :
    ∀ (l seen : List JValue),
      x ∈ dedupFirstAux seen l ↔ x ∈ l ∧ svzMem x seen = false := by
  intro l
  induction l with
  | nil => intro seen; simp [dedupFirstAux]
  | cons y ys ih =>
    intro seen
    rw [dedupFirstAux]
    by_cases hy : svzMem y seen = true
    · rw [if_pos hy, ih]
      constructor
      · rintro ⟨h1, h2⟩; exact ⟨List.mem_cons_of_mem _ h1, h2⟩
      · rintro ⟨h1, h2⟩
        rcases List.mem_cons.mp h1 with h | h
        · subst h; rw [hy] at h2; cases h2
        · exact ⟨h, h2⟩
    · have hy' : svzMem y seen = false := by
        cases hcase : svzMem y seen with
        | false => rfl
        | true => exact absurd hcase hy
      rw [if_neg hy]
      constructor
      · intro h
        rcases List.mem_cons.mp h with h | h
        · subst h; exact ⟨List.mem_cons_self _ _, hy'⟩
        · obtain ⟨h1, h2⟩ := (ih (y :: seen)).mp h
          rw [svzMem_cons] at h2
          exact ⟨List.mem_cons_of_mem _ h1, (Bool.or_eq_false_iff.mp h2).2⟩
      · rintro ⟨h1, h2⟩
        rcases List.mem_cons.mp h1 with h | h
        · subst h; exact List.mem_cons_self _ _
        · by_cases hxy : x = y
          · subst hxy; exact List.mem_cons_self _ _
          · have hxyf : jsSameValueZero x y = false := by
              cases hc : jsSameValueZero x y with
              | false => rfl
              | true => exact absurd (svz_eq _ _ hc) hxy
            refine List.mem_cons_of_mem _ ((ih (y :: seen)).mpr ⟨h, ?_⟩)
            rw [svzMem_cons, hxyf, h2]
            rfl

theorem mem_dedupFirst (x : JValue) (l : List JValue) : x ∈ dedupFirst l ↔ x ∈ l := by
  rw [dedupFirst, mem_dedupFirstAux]
  simp [svzMem_nil]

theorem pairwise_svz_dedupFirstAux : ∀ (l seen : List JValue),
    (dedupFirstAux seen l).Pairwise (fun a b => jsSameValueZero a b = false) := by
  intro l
  induction l with
  | nil => intro seen; simp [dedupFirstAux]
  | cons y ys ih =>
    intro seen
    rw [dedupFirstAux]
    by_cases hy : svzMem y seen = true
    · rw [if_pos hy]; exact ih seen
    · rw [if_neg hy]
      refine List.pairwise_cons.mpr ⟨?_, ih (y :: seen)⟩
      intro b hb
      obtain ⟨_, h2⟩ := (mem_dedupFirstAux b ys (y :: seen)).mp hb
      rw [svzMem_cons] at h2
      exact svz_false_symm b y (Bool.or_eq_false_iff.mp h2).1

theorem pairwise_svz_dedupFirst (l : List JValue) :
    (dedupFirst l).Pairwise (fun a b => jsSameValueZero a b = false) :=
  pairwise_svz_dedupFirstAux l []

theorem dedupFirstAux_eq_self : ∀ (l seen : List JValue),
    l.Pairwise (fun a b => jsSameValueZero a b = false) →
    (∀ x ∈ l, svzMem x seen = false) → dedupFirstAux seen l = l := by
  intro l
  induction l with
  | nil => intro seen _ _; rfl
  | cons y ys ih =>
    intro seen hpw hdis
    rw [dedupFirstAux, if_neg (by rw [hdis y (List.mem_cons_self _ _)]; simp)]
    congr 1
    obtain ⟨hhead, htail⟩ := List.pairwise_cons.mp hpw
    refine ih (y :: seen) htail ?_
    intro x hx
    rw [svzMem_cons, svz_false_symm y x (hhead x hx),
      hdis x (List.mem_cons_of_mem _ hx)]
    rfl

theorem dedupFirst_eq_self (l : List JValue)
    (h : l.Pairwise (fun a b => jsSameValueZero a b = false)) : dedupFirst l = l :=
  dedupFirstAux_eq_self l [] h (fun x _ => rfl)

theorem dedupFirstAux_filter (p : JValue → Bool) :
    ∀ (l seen seen' : List JValue),
      (∀ x, p x = true → svzMem x seen = svzMem x seen') →
      dedupFirstAux seen (l.filter p) = (dedupFirstAux seen' l).filter p := by
  intro l
  induction l with
  | nil => intro seen seen' _; rfl
  | cons y ys ih =>
    intro seen seen' hagree
    cases hp : p y with
    | false =>
      rw [List.filter_cons_of_neg (by simp [hp]), dedupFirstAux]
      by_cases hy : svzMem y seen' = true
      · rw [if_pos hy]; exact ih seen seen' hagree
      · rw [if_neg hy, List.filter_cons_of_neg (by simp [hp])]
        refine ih seen (y :: seen') ?_
        intro x hx
        have hxy : jsSameValueZero x y = false := by
          cases hc : jsSameValueZero x y with
          | false => rfl
          | true =>
            have he := svz_eq x y hc
            subst he
            rw [hx] at hp
            cases hp
        rw [svzMem_cons, hxy, hagree x hx]
        rfl
    | true =>
      rw [List.filter_cons_of_pos (by simp [hp]), dedupFirstAux, dedupFirstAux]
      have hyy : svzMem y seen = svzMem y seen' := hagree y hp
      by_cases hy : svzMem y seen' = true
      · rw [if_pos hy, if_pos (by rw [hyy]; exact hy)]
        exact ih seen seen' hagree
      · rw [if_neg hy, if_neg (by rw [hyy]; exact hy),
          List.filter_cons_of_pos (by simp [hp])]
        congr 1
        refine ih (y :: seen) (y :: seen') ?_
        intro x hx
        rw [svzMem_cons, svzMem_cons, hagree x hx]

theorem dedupFirst_filter (p : JValue → Bool) (l : List JValue) :
    dedupFirst (l.filter p) = (dedupFirst l).filter p :=
  dedupFirstAux_filter p l [] [] (fun x _ => rfl)

theorem prependDefaults_nil (l : List JValue) : prependDefaults [] l = l := rfl

theorem prependDefaults_cons (d : String) (D : List String) (l : List JValue) :
    prependDefaults (d :: D) l =
      (if JValue.vStr d ∈ prependDefaults D l then prependDefaults D l
       else JValue.vStr d :: prependDefaults D l) := rfl

theorem mem_prependDefaults_of_mem (x : JValue) (D : List String) (l : List JValue)
    (h : x ∈ l) : x ∈ prependDefaults D l := by
  induction D with
  | nil => exact h
  | cons d D ih =>
    rw [prependDefaults_cons]
    by_cases hd : JValue.vStr d ∈ prependDefaults D l
    · rw [if_pos hd]; exact ih
    · rw [if_neg hd]; exact List.mem_cons_of_mem _ ih

theorem mem_prependDefaults_default (d : String) (D : List String) (l : List JValue)
    (h : d ∈ D) : JValue.vStr d ∈ prependDefaults D l := by
  induction D with
  | nil => simp at h
  | cons e D ih =>
    rw [prependDefaults_cons]
    rcases List.mem_cons.mp h with he | he
    · by_cases hd : JValue.vStr e ∈ prependDefaults D l
      · rw [if_pos hd, he]; exact hd
      · rw [if_neg hd, he]; exact List.mem_cons_self _ _
    · by_cases hd : JValue.vStr e ∈ prependDefaults D l
      · rw [if_pos hd]; exact ih he
      · rw [if_neg hd]; exact List.mem_cons_of_mem _ (ih he)

theorem mem_prependDefaults_cases (x : JValue) (D : List String) (l : List JValue)
    (h : x ∈ prependDefaults D l) : x ∈ l ∨ ∃ d ∈ D, x = JValue.vStr d := by
  induction D with
  | nil => exact Or.inl h
  | cons d D ih =>
    rw [prependDefaults_cons] at h
    by_cases hd : JValue.vStr d ∈ prependDefaults D l
    · rw [if_pos hd] at h
      rcases ih h with h1 | ⟨e, he, hx⟩
      · exact Or.inl h1
      · exact Or.inr ⟨e, List.mem_cons_of_mem _ he, hx⟩
    · rw [if_neg hd] at h
      rcases List.mem_cons.mp h with h1 | h1
      · exact Or.inr ⟨d, List.mem_cons_self _ _, h1⟩
      · rcases ih h1 with h2 | ⟨e, he, hx⟩
        · exact Or.inl h2
        · exact Or.inr ⟨e, List.mem_cons_of_mem _ he, hx⟩

theorem prependDefaults_eq_dedup_filter (D : List String) (l : List JValue) :
    prependDefaults D l =
      ((D.map JValue.vStr).filter (fun x => x ∉ l)).dedup ++ l := by
  induction D with
  | nil => simp [prependDefaults_nil]
  | cons d D ih =>
    rw [prependDefaults_cons, ih, List.map_cons]
    by_cases hdl : JValue.vStr d ∈ l
    · rw [List.filter_cons_of_neg (by simpa using hdl)]
      rw [if_pos (List.mem_append.mpr (Or.inr hdl))]
    · rw [List.filter_cons_of_pos (by simpa using hdl)]
      by_cases hdd : JValue.vStr d ∈ ((D.map JValue.vStr).filter (fun x => x ∉ l)).dedup
      · rw [if_pos (List.mem_append.mpr (Or.inl hdd)),
          List.dedup_cons_of_mem (List.mem_dedup.mp hdd)]
      · have hnot : JValue.vStr d ∉ ((D.map JValue.vStr).filter (fun x => x ∉ l)).dedup ++ l :=
          fun hc => (List.mem_append.mp hc).elim hdd hdl
        rw [if_neg hnot, List.dedup_cons_of_not_mem (fun hc => hdd (List.mem_dedup.mpr hc))]
        rfl

theorem collectTags_fix (D : List String) (S : List JValue)
    (hpw : S.Pairwise (fun a b => jsSameValueZero a b = false))
    (htr : ∀ x ∈ S, jsTruthy x = true)
    (hds : ∀ d ∈ D, jsTruthy (JValue.vStr d) = true → JValue.vStr d ∈ S) :
    (dedupFirst (prependDefaults D S)).filter jsTruthy = S := by
  induction D with
  | nil =>
    rw [prependDefaults_nil, dedupFirst_eq_self S hpw]
    exact List.filter_eq_self.mpr htr
  | cons d D ih =>
    have ih' := ih (fun e he ht => hds e (List.mem_cons_of_mem _ he) ht)
    rw [prependDefaults_cons]
    by_cases hd : JValue.vStr d ∈ prependDefaults D S
    · rw [if_pos hd]; exact ih'
    · rw [if_neg hd]
      have hfalse : jsTruthy (JValue.vStr d) = false := by
        cases hcase : jsTruthy (JValue.vStr d) with
        | false => rfl
        | true =>
          exact absurd (mem_prependDefaults_of_mem _ D S
            (hds d (List.mem_cons_self _ _) hcase)) hd
      have hstep : dedupFirst (JValue.vStr d :: prependDefaults D S) =
          JValue.vStr d :: dedupFirstAux [JValue.vStr d] (prependDefaults D S) := by
        rw [dedupFirst, dedupFirstAux, if_neg (by rw [svzMem_nil]; simp)]
      rw [hstep, List.filter_cons_of_neg (by simp [hfalse])]
      have hagree : ∀ x, jsTruthy x = true →
          svzMem x [] = svzMem x [JValue.vStr d] := by
        intro x hx
        have hxd : jsSameValueZero x (JValue.vStr d) = false := by
          cases hc : jsSameValueZero x (JValue.vStr d) with
          | false => rfl
          | true =>
            have he := svz_eq _ _ hc
            rw [he] at hx
            rw [hx] at hfalse
            cases hfalse
        rw [svzMem_cons, svzMem_nil, hxd]
        rfl
      have h1 := dedupFirstAux_filter jsTruthy (prependDefaults D S) [] [JValue.vStr d] hagree
      have h2 := dedupFirstAux_filter jsTruthy (prependDefaults D S) [] [] (fun x _ => rfl)
      rw [h1] at h2
      rw [h2]
      exact ih'

theorem collectTags_empty_propagate (D : List String) (l : List JValue)
    (h : (dedupFirst (prependDefaults D l)).filter jsTruthy = []) :
    (dedupFirst (prependDefaults D [])).filter jsTruthy = [] := by
  have hall : ∀ x ∈ prependDefaults D l, ¬ jsTruthy x = true := by
    intro x hx
    have := List.filter_eq_nil.mp h x ((mem_dedupFirst x _).mpr hx)
    simpa using this
  refine List.filter_eq_nil.mpr ?_
  intro x hx
  rcases mem_prependDefaults_cases x D [] ((mem_dedupFirst x _).mp hx) with h1 | ⟨d, hd, hxd⟩
  · simp at h1
  · exact hxd ▸ hall _ (mem_prependDefaults_default d D l hd)

theorem prependDefaults_falsyTail (D : List String) (l : List JValue)
    (hl : ∀ x ∈ l, x = JValue.vStr "") :
    ((prependDefaults D l).filter jsTruthy = (prependDefaults D []).filter jsTruthy) ∧
      (∀ x, x ∈ prependDefaults D l ↔ (x ∈ prependDefaults D [] ∨ x ∈ l)) := by
  induction D with
  | nil =>
    constructor
    · rw [prependDefaults_nil, prependDefaults_nil]
      have h1 : l.filter jsTruthy = [] := by
        refine List.filter_eq_nil.mpr ?_
        intro x hx
        rw [hl x hx]
        simp [jsTruthy]
      rw [h1]; rfl
    · intro x
      rw [prependDefaults_nil, prependDefaults_nil]
      simp
  | cons d D ih =>
    obtain ⟨ihf, ihm⟩ := ih
    have hmemiff : JValue.vStr d ∈ prependDefaults D l ↔
        (JValue.vStr d ∈ prependDefaults D [] ∨ JValue.vStr d ∈ l) := ihm _
    rw [prependDefaults_cons, prependDefaults_cons]
    by_cases hd0 : JValue.vStr d ∈ prependDefaults D []
    · rw [if_pos hd0, if_pos (hmemiff.mpr (Or.inl hd0))]
      exact ⟨ihf, ihm⟩
    · rw [if_neg hd0]
      by_cases hdl : JValue.vStr d ∈ l
      · -- the default tag equals "" and already sits in the falsy tail
        have hde : d = "" := by
          have := hl _ hdl
          injection this
        have hfalsy : jsTruthy (JValue.vStr d) = false := by rw [hde]; simp [jsTruthy]
        rw [if_pos (hmemiff.mpr (Or.inr hdl))]
        constructor
        · rw [List.filter_cons_of_neg (by simp [hfalsy]), ihf]
        · intro x
          rw [ihm x, List.mem_cons]
          constructor
          · rintro (h | h)
            · exact Or.inl (Or.inr h)
            · exact Or.inr h
          · rintro ((h | h) | h)
            · exact Or.inr (h ▸ hdl)
            · exact Or.inl h
            · exact Or.inr h
      · have hndl : JValue.vStr d ∉ prependDefaults D l :=
          fun hc => (hmemiff.mp hc).elim hd0 hdl
        rw [if_neg hndl]
        constructor
        · cases htr : jsTruthy (JValue.vStr d) with
          | true =>
            rw [List.filter_cons_of_pos (by simp [htr]),
              List.filter_cons_of_pos (by simp [htr]), ihf]
          | false =>
            rw [List.filter_cons_of_neg (by simp [htr]),
              List.filter_cons_of_neg (by simp [htr]), ihf]
        · intro x
          rw [List.mem_cons, List.mem_cons, ihm x]
          constructor
          · rintro (h | h | h)
            · exact Or.inl (Or.inl h)
            · exact Or.inl (Or.inr h)
            · exact Or.inr h
          · rintro ((h | h) | h)
            · exact Or.inl h
            · exact Or.inr (Or.inl h)
            · exact Or.inr (Or.inr h)

theorem collectTags_falsyTail (D : List String) (l : List JValue)
    (hl : ∀ x ∈ l, x = JValue.vStr "") :
    (dedupFirst (prependDefaults D l)).filter jsTruthy =
      (dedupFirst (prependDefaults D [])).filter jsTruthy := by
  rw [← dedupFirst_filter, ← dedupFirst_filter, (prependDefaults_falsyTail D l hl).1]

theorem lookupField_append_some (l₁ l₂ : List (String × JValue)) (k : String) (v : JValue)
    (h : lookupField l₁ k = some v) : lookupField (l₁ ++ l₂) k = some v := by
  induction l₁ with
  | nil => simp [lookupField] at h
  | cons kv rest ih =>
    obtain ⟨k', u⟩ := kv
    rw [List.cons_append, lookupField]
    rw [lookupField] at h
    by_cases hk : k = k'
    · rw [if_pos hk] at h ⊢; exact h
    · rw [if_neg hk] at h ⊢; exact ih h

theorem lookupField_append_none (l₁ l₂ : List (String × JValue)) (k : String)
    (h : lookupField l₁ k = none) : lookupField (l₁ ++ l₂) k = lookupField l₂ k := by
  induction l₁ with
  | nil => rfl
  | cons kv rest ih =>
    obtain ⟨k', u⟩ := kv
    rw [List.cons_append, lookupField]
    rw [lookupField] at h
    by_cases hk : k = k'
    · rw [if_pos hk] at h; cases h
    · rw [if_neg hk] at h ⊢; exact ih h

theorem lookupField_optField_self (k : String) (v : Option JValue) :
    lookupField (optField k v) k = v := by
  cases v with
  | none => rfl
  | some x => simp [optField, lookupField]

theorem lookupField_optField_ne (k k' : String) (v : Option JValue) (h : k ≠ k') :
    lookupField (optField k' v) k = none := by
  cases v with
  | none => rfl
  | some x => simp [optField, lookupField, h]

theorem getField_toJV_ne (c : Contact) (k : String)
    (h1 : k ≠ "email") (h2 : k ≠ "phone") (h3 : k ≠ "firstName") (h4 : k ≠ "lastName")
    (h5 : k ≠ "tags") (h6 : k ≠ "locationId") :
    jsGetField (contactToJValue c) k = none := by
  simp only [contactToJValue, jsGetField]
  rw [lookupField_append_none _ _ _ (lookupField_optField_ne _ _ _ h1),
    lookupField_append_none _ _ _ (lookupField_optField_ne _ _ _ h2),
    lookupField_append_none _ _ _ (lookupField_optField_ne _ _ _ h3),
    lookupField_append_none _ _ _ (lookupField_optField_ne _ _ _ h4),
    lookupField_append_none _ _ _ (lookupField_optField_ne _ _ _ h5),
    lookupField_optField_ne _ _ _ h6]

theorem getField_toJV_email (c : Contact) :
    jsGetField (contactToJValue c) "email" = c.email := by
  simp only [contactToJValue, jsGetField]
  cases he : c.email with
  | some v =>
    exact lookupField_append_some _ _ _ _ (by rw [lookupField_optField_self])
  | none =>
    rw [lookupField_append_none _ _ _ (by rw [lookupField_optField_self]),
      lookupField_append_none _ _ _ (lookupField_optField_ne _ _ _ (by decide)),
      lookupField_append_none _ _ _ (lookupField_optField_ne _ _ _ (by decide)),
      lookupField_append_none _ _ _ (lookupField_optField_ne _ _ _ (by decide)),
      lookupField_append_none _ _ _ (lookupField_optField_ne _ _ _ (by decide)),
      lookupField_optField_ne _ _ _ (by decide)]

theorem getField_toJV_phone (c : Contact) :
    jsGetField (contactToJValue c) "phone" = c.phone := by
  simp only [contactToJValue, jsGetField]
  rw [lookupField_append_none _ _ _ (lookupField_optField_ne _ _ _ (by decide))]
  cases he : c.phone with
  | some v =>
    exact lookupField_append_some _ _ _ _ (by rw [lookupField_optField_self])
  | none =>
    rw [lookupField_append_none _ _ _ (by rw [lookupField_optField_self]),
      lookupField_append_none _ _ _ (lookupField_optField_ne _ _ _ (by decide)),
      lookupField_append_none _ _ _ (lookupField_optField_ne _ _ _ (by decide)),
      lookupField_append_none _ _ _ (lookupField_optField_ne _ _ _ (by decide)),
      lookupField_optField_ne _ _ _ (by decide)]

theorem getField_toJV_firstName (c : Contact) :
    jsGetField (contactToJValue c) "firstName" = c.firstName := by
  simp only [contactToJValue, jsGetField]
  rw [lookupField_append_none _ _ _ (lookupField_optField_ne _ _ _ (by decide)),
    lookupField_append_none _ _ _ (lookupField_optField_ne _ _ _ (by decide))]
  cases he : c.firstName with
  | some v =>
    exact lookupField_append_some _ _ _ _ (by rw [lookupField_optField_self])
  | none =>
    rw [lookupField_append_none _ _ _ (by rw [lookupField_optField_self]),
      lookupField_append_none _ _ _ (lookupField_optField_ne _ _ _ (by decide)),
      lookupField_append_none _ _ _ (lookupField_optField_ne _ _ _ (by decide)),
      lookupField_optField_ne _ _ _ (by decide)]

theorem getField_toJV_lastName (c : Contact) :
    jsGetField (contactToJValue c) "lastName" = c.lastName := by
  simp only [contactToJValue, jsGetField]
  rw [lookupField_append_none _ _ _ (lookupField_optField_ne _ _ _ (by decide)),
    lookupField_append_none _ _ _ (lookupField_optField_ne _ _ _ (by decide)),
    lookupField_append_none _ _ _ (lookupField_optField_ne _ _ _ (by decide))]
  cases he : c.lastName with
  | some v =>
    exact lookupField_append_some _ _ _ _ (by rw [lookupField_optField_self])
  | none =>
    rw [lookupField_append_none _ _ _ (by rw [lookupField_optField_self]),
      lookupField_append_none _ _ _ (lookupField_optField_ne _ _ _ (by decide)),
      lookupField_optField_ne _ _ _ (by decide)]

theorem getField_toJV_tags (c : Contact) :
    jsGetField (contactToJValue c) "tags" = c.tags.map JValue.vArr := by
  simp only [contactToJValue, jsGetField]
  rw [lookupField_append_none _ _ _ (lookupField_optField_ne _ _ _ (by decide)),
    lookupField_append_none _ _ _ (lookupField_optField_ne _ _ _ (by decide)),
    lookupField_append_none _ _ _ (lookupField_optField_ne _ _ _ (by decide)),
    lookupField_append_none _ _ _ (lookupField_optField_ne _ _ _ (by decide))]
  cases he : c.tags with
  | some v =>
    exact lookupField_append_some _ _ _ _ (by rw [lookupField_optField_self]; rfl)
  | none =>
    rw [lookupField_append_none _ _ _ (by rw [lookupField_optField_self]; rfl),
      lookupField_optField_ne _ _ _ (by decide)]
    rfl

theorem jsTruthy_toJV (c : Contact) : jsTruthy (contactToJValue c) = true := by
  simp [contactToJValue, jsTruthy]

theorem getPathStep_toJV (c : Contact) (k : String) :
    getPathStep (some (contactToJValue c)) k = jsGetField (contactToJValue c) k := by
  simp [getPathStep, jsTruthy_toJV]

theorem getField_toJV_notMem (c : Contact) (k : String)
    (h : k ∉ ["email", "phone", "firstName", "lastName", "tags", "locationId"]) :
    jsGetField (contactToJValue c) k = none := by
  simp only [List.mem_cons, List.not_mem_nil, or_false, not_or] at h
  obtain ⟨h1, h2, h3, h4, h5, h6⟩ := h
  exact getField_toJV_ne c k h1 h2 h3 h4 h5 h6

theorem getPath_toJV_single (c : Contact) (k : String) (hs : jsSplit '.' k = [k]) :
    getPath (contactToJValue c) k = jsGetField (contactToJValue c) k := by
  rw [getPath, hs, List.foldl_cons, List.foldl_nil, getPathStep_toJV]

theorem getPath_toJV_contact2 (c : Contact) (p k : String)
    (hs : jsSplit '.' p = ["contact", k]) :
    getPath (contactToJValue c) p = none := by
  rw [getPath, hs, List.foldl_cons, List.foldl_cons, List.foldl_nil, getPathStep_toJV,
    getField_toJV_notMem c "contact" (by decide)]
  rfl

theorem mem_optField (kv : String × JValue) (k : String) (v : Option JValue)
    (h : kv ∈ optField k v) : kv.1 = k := by
  cases v with
  | none => simp [optField] at h
  | some x =>
    simp only [optField, List.mem_singleton] at h
    rw [h]

theorem mem_jsEntries_toJV (c : Contact) (kv : String × JValue)
    (h : kv ∈ jsEntries (contactToJValue c)) :
    kv.1 = "email" ∨ kv.1 = "phone" ∨ kv.1 = "firstName" ∨ kv.1 = "lastName" ∨
      kv.1 = "tags" ∨ kv.1 = "locationId" := by
  simp only [contactToJValue, jsEntries] at h
  rcases List.mem_append.mp h with h | h
  · exact Or.inl (mem_optField _ _ _ h)
  rcases List.mem_append.mp h with h | h
  · exact Or.inr (Or.inl (mem_optField _ _ _ h))
  rcases List.mem_append.mp h with h | h
  · exact Or.inr (Or.inr (Or.inl (mem_optField _ _ _ h)))
  rcases List.mem_append.mp h with h | h
  · exact Or.inr (Or.inr (Or.inr (Or.inl (mem_optField _ _ _ h))))
  rcases List.mem_append.mp h with h | h
  · exact Or.inr (Or.inr (Or.inr (Or.inr (Or.inl (mem_optField _ _ _ h)))))
  · exact Or.inr (Or.inr (Or.inr (Or.inr (Or.inr (mem_optField _ _ _ h)))))

theorem keepTruthy_some (o : Option JValue) (v : JValue) (h : keepTruthy o = some v) :
    o = some v ∧ jsTruthy v = true := by
  cases o with
  | none => simp [keepTruthy] at h
  | some u =>
    rw [keepTruthy] at h
    cases ht : jsTruthy u with
    | false => rw [ht] at h; simp at h
    | true =>
      rw [ht] at h
      simp only [if_true] at h
      cases h
      exact ⟨rfl, ht⟩

theorem keepTruthy_of_truthy (o : Option JValue)
    (h : ∀ v, o = some v → jsTruthy v = true) : keepTruthy o = o := by
  cases o with
  | none => rfl
  | some u => simp [keepTruthy, h u rfl]

theorem build_email_def (p : JValue) (D : List String) (loc : Option String)
    (pat : Option (String → Bool)) :
    (buildContactPayload p D loc pat).email =
      keepTruthy (pick p ["email", "contact.email", "contact.email_address"]) := rfl

theorem build_phone_def (p : JValue) (D : List String) (loc : Option String)
    (pat : Option (String → Bool)) :
    (buildContactPayload p D loc pat).phone =
      keepTruthy (pick p ["phone", "contact.phone", "contact.phone_number"]) := rfl

theorem build_firstName_def (p : JValue) (D : List String) (loc : Option String)
    (pat : Option (String → Bool)) :
    (buildContactPayload p D loc pat).firstName =
      keepTruthy (pick p
        ["firstName", "firstname", "first_name", "contact.first_name", "contact.firstname"]) :=
  rfl

theorem build_lastName_def (p : JValue) (D : List String) (loc : Option String)
    (pat : Option (String → Bool)) :
    (buildContactPayload p D loc pat).lastName =
      keepTruthy (pick p
        ["lastName", "lastname", "last_name", "contact.last_name", "contact.lastname"]) := rfl

theorem build_tags_def (p : JValue) (D : List String) (loc : Option String)
    (pat : Option (String → Bool)) :
    (buildContactPayload p D loc pat).tags =
      (if (collectTags p D pat).isEmpty then none else some (collectTags p D pat)) := rfl

theorem build_locationId_def (p : JValue) (D : List String) (loc : Option String)
    (pat : Option (String → Bool)) :
    (buildContactPayload p D loc pat).locationId =
      (match loc with
       | some s => if s ≠ "" then some s else none
       | none => none) := rfl

theorem contact_ext (a b : Contact) (h1 : a.email = b.email) (h2 : a.phone = b.phone)
    (h3 : a.firstName = b.firstName) (h4 : a.lastName = b.lastName) (h5 : a.tags = b.tags)
    (h6 : a.locationId = b.locationId) : a = b := by
  cases a; cases b
  simp only at h1 h2 h3 h4 h5 h6
  rw [h1, h2, h3, h4, h5, h6]

theorem pick_none_of_all_none (payload : JValue) (paths : List String)
    (h : ∀ q ∈ paths, getPath payload q = none) : pick payload paths = none := by
  induction paths with
  | nil => rfl
  | cons q qs ih =>
    rw [pick, h q (List.mem_cons_self _ _)]
    exact ih (fun r hr => h r (List.mem_cons_of_mem _ hr))

theorem repick_generic (c : Contact) (v? : Option JValue) (first : String)
    (rest : List String) (hfirst : getPath (contactToJValue c) first = v?)
    (hrest : ∀ q ∈ rest, getPath (contactToJValue c) q = none)
    (hc : ∀ v, v? = some v →
      jsTruthy v = true ∧ v ≠ JValue.vNull ∧ jsTrim (jsToString v) ≠ "") :
    keepTruthy (pick (contactToJValue c) (first :: rest)) = v? := by
  have hnone : pick (contactToJValue c) rest = none := pick_none_of_all_none _ _ hrest
  cases hv : v? with
  | none =>
    rw [hv] at hfirst
    rw [pick, hfirst, hnone]
    rfl
  | some v =>
    obtain ⟨ht, hn, hs⟩ := hc v hv
    rw [hv] at hfirst
    simp only [pick, hfirst]
    rw [if_pos (And.intro hn hs)]
    simp [keepTruthy, ht]

theorem repick_email (c : Contact)
    (hc : ∀ v, c.email = some v →
      jsTruthy v = true ∧ v ≠ JValue.vNull ∧ jsTrim (jsToString v) ≠ "") :
    keepTruthy (pick (contactToJValue c)
      ["email", "contact.email", "contact.email_address"]) = c.email := by
  refine repick_generic c c.email "email" ["contact.email", "contact.email_address"] ?_ ?_ hc
  · rw [getPath_toJV_single c "email" rfl, getField_toJV_email]
  · intro q hq
    simp only [List.mem_cons, List.not_mem_nil, or_false] at hq
    rcases hq with rfl | rfl
    · exact getPath_toJV_contact2 c _ "email" rfl
    · exact getPath_toJV_contact2 c _ "email_address" rfl

theorem repick_phone (c : Contact)
    (hc : ∀ v, c.phone = some v →
      jsTruthy v = true ∧ v ≠ JValue.vNull ∧ jsTrim (jsToString v) ≠ "") :
    keepTruthy (pick (contactToJValue c)
      ["phone", "contact.phone", "contact.phone_number"]) = c.phone := by
  refine repick_generic c c.phone "phone" ["contact.phone", "contact.phone_number"] ?_ ?_ hc
  · rw [getPath_toJV_single c "phone" rfl, getField_toJV_phone]
  · intro q hq
    simp only [List.mem_cons, List.not_mem_nil, or_false] at hq
    rcases hq with rfl | rfl
    · exact getPath_toJV_contact2 c _ "phone" rfl
    · exact getPath_toJV_contact2 c _ "phone_number" rfl

theorem repick_firstName (c : Contact)
    (hc : ∀ v, c.firstName = some v →
      jsTruthy v = true ∧ v ≠ JValue.vNull ∧ jsTrim (jsToString v) ≠ "") :
    keepTruthy (pick (contactToJValue c)
      ["firstName", "firstname", "first_name", "contact.first_name", "contact.firstname"]) =
      c.firstName := by
  refine repick_generic c c.firstName "firstName"
    ["firstname", "first_name", "contact.first_name", "contact.firstname"] ?_ ?_ hc
  · rw [getPath_toJV_single c "firstName" rfl, getField_toJV_firstName]
  · intro q hq
    simp only [List.mem_cons, List.not_mem_nil, or_false] at hq
    rcases hq with rfl | rfl | rfl | rfl
    · rw [getPath_toJV_single c "firstname" rfl]
      exact getField_toJV_notMem c "firstname" (by decide)
    · rw [getPath_toJV_single c "first_name" rfl]
      exact getField_toJV_notMem c "first_name" (by decide)
    · exact getPath_toJV_contact2 c _ "first_name" rfl
    · exact getPath_toJV_contact2 c _ "firstname" rfl

theorem repick_lastName (c : Contact)
    (hc : ∀ v, c.lastName = some v →
      jsTruthy v = true ∧ v ≠ JValue.vNull ∧ jsTrim (jsToString v) ≠ "") :
    keepTruthy (pick (contactToJValue c)
      ["lastName", "lastname", "last_name", "contact.last_name", "contact.lastname"]) =
      c.lastName := by
  refine repick_generic c c.lastName "lastName"
    ["lastname", "last_name", "contact.last_name", "contact.lastname"] ?_ ?_ hc
  · rw [getPath_toJV_single c "lastName" rfl, getField_toJV_lastName]
  · intro q hq
    simp only [List.mem_cons, List.not_mem_nil, or_false] at hq
    rcases hq with rfl | rfl | rfl | rfl
    · rw [getPath_toJV_single c "lastname" rfl]
      exact getField_toJV_notMem c "lastname" (by decide)
    · rw [getPath_toJV_single c "last_name" rfl]
      exact getField_toJV_notMem c "last_name" (by decide)
    · exact getPath_toJV_contact2 c _ "last_name" rfl
    · exact getPath_toJV_contact2 c _ "lastname" rfl

theorem repick_tags_none (c : Contact) (h : c.tags = none) :
    pick (contactToJValue c) ["tags", "contact.tags"] = none := by
  refine pick_none_of_all_none _ _ ?_
  intro q hq
  simp only [List.mem_cons, List.not_mem_nil, or_false] at hq
  rcases hq with rfl | rfl
  · rw [getPath_toJV_single c "tags" rfl, getField_toJV_tags, h]
    rfl
  · exact getPath_toJV_contact2 c _ "tags" rfl

theorem repick_tags_some (c : Contact) (T : List JValue) (h : c.tags = some T) :
    pick (contactToJValue c) ["tags", "contact.tags"] =
      (if jsTrim (jsToString (JValue.vArr T)) ≠ "" then some (JValue.vArr T) else none) := by
  have h1 : getPath (contactToJValue c) "tags" = some (JValue.vArr T) := by
    rw [getPath_toJV_single c "tags" rfl, getField_toJV_tags, h]
    rfl
  have h2 : pick (contactToJValue c) ["contact.tags"] = none :=
    pick_none_of_all_none _ _ (by
      intro q hq
      simp only [List.mem_singleton] at hq
      rw [hq]
      exact getPath_toJV_contact2 c _ "tags" rfl)
  simp only [pick, h1]
  have hne : JValue.vArr T ≠ JValue.vNull := fun hcon => JValue.noConfusion hcon
  by_cases hts : jsTrim (jsToString (JValue.vArr T)) ≠ ""
  · rw [if_pos (And.intro hne hts), if_pos hts]
  · rw [if_neg (fun hcon => hts hcon.2), if_neg hts]
    have h3 : getPath (contactToJValue c) "contact.tags" = none :=
      getPath_toJV_contact2 c "contact.tags" "tags" rfl
    simp only [h3]

theorem extractedTags_toJV_empty (c : Contact) (f : String → Bool)
    (hf : f "email" = false ∧ f "phone" = false ∧ f "firstName" = false ∧
      f "lastName" = false ∧ f "tags" = false ∧ f "locationId" = false) :
    extractedTags (contactToJValue c) f = [] := by
  rw [extractedTags]
  have hfil : (jsEntries (contactToJValue c)).filter (fun kv => jsTruthy kv.2 && f kv.1) = [] := by
    refine List.filter_eq_nil.mpr ?_
    intro kv hkv
    rcases mem_jsEntries_toJV c kv hkv with h | h | h | h | h | h <;>
      simp [h, hf.1, hf.2.1, hf.2.2.1, hf.2.2.2.1, hf.2.2.2.2.1, hf.2.2.2.2.2]
  rw [hfil]
  rfl

theorem comma_in_jsToStringList (x y : JValue) (rest : List JValue) :
    jsTrim (jsToStringList (x :: y :: rest)) ≠ "" := by
  refine jsTrim_ne_empty _ ',' ?_ (by decide)
  have heq : jsToStringList (x :: y :: rest) =
      (match x with | JValue.vNull => "" | v => jsToString v) ++ "," ++
        jsToStringList (y :: rest) := by
    cases x <;> rfl
  rw [heq, string_data_append, string_data_append]
  simp

theorem discoveredTags_shape (p : JValue) (pat : Option (String → Bool))
    (htags : ∀ xs, pick p ["tags", "contact.tags"] ≠ some (JValue.vArr xs)) :
    ∀ x ∈ discoveredTags p pat, ∃ s, x = JValue.vStr s ∧ jsTrim s = s := by
  intro x hx
  unfold discoveredTags at hx
  rcases List.mem_append.mp hx with hx | hx
  · cases hp : pick p ["tags", "contact.tags"] with
    | none => rw [hp] at hx; simp [ensureArrayTags] at hx
    | some v =>
      cases v with
      | vStr s =>
        rw [hp, ensureArrayTags] at hx
        rcases List.mem_map.mp hx with ⟨t, ht, rfl⟩
        have ht' := List.of_mem_filter ht
        rcases List.mem_map.mp (List.mem_of_mem_filter ht) with ⟨u, hu, rfl⟩
        exact ⟨jsTrim u, rfl, jsTrim_idem u⟩
      | vArr xs => exact absurd hp (htags xs)
      | vNum n => rw [hp] at hx; simp [ensureArrayTags] at hx
      | vBool b => rw [hp] at hx; simp [ensureArrayTags] at hx
      | vNull => rw [hp] at hx; simp [ensureArrayTags] at hx
      | vObj fs => rw [hp] at hx; simp [ensureArrayTags] at hx
  · cases pat with
    | none => simp at hx
    | some f =>
      rcases List.mem_map.mp hx with ⟨kv, hkv, rfl⟩
      exact ⟨jsTrim (jsToString kv.2), rfl, jsTrim_idem _⟩

theorem collectTags_toJV (p : JValue) (D : List String) (loc : Option String)
    (pat : Option (String → Bool))
    (htags : ∀ xs, pick p ["tags", "contact.tags"] ≠ some (JValue.vArr xs))
    (hpat : ∀ f, pat = some f →
      (f "email" = false ∧ f "phone" = false ∧ f "firstName" = false ∧
       f "lastName" = false ∧ f "tags" = false ∧ f "locationId" = false)) :
    collectTags (contactToJValue (buildContactPayload p D loc pat)) D pat =
      collectTags p D pat := by
  have hCdef : collectTags p D pat =
      (dedupFirst (prependDefaults D (discoveredTags p pat))).filter jsTruthy := rfl
  have hpat2 : (match pat with
      | some f => extractedTags (contactToJValue (buildContactPayload p D loc pat)) f
      | none => []) = [] := by
    cases pat with
    | none => rfl
    | some f => exact extractedTags_toJV_empty _ f (hpat f rfl)
  have hotags : (buildContactPayload p D loc pat).tags =
      (if (collectTags p D pat).isEmpty then none else some (collectTags p D pat)) :=
    build_tags_def p D loc pat
  by_cases hCe : (collectTags p D pat).isEmpty
  · have hCnil : collectTags p D pat = [] := List.isEmpty_iff.mp hCe
    have hot : (buildContactPayload p D loc pat).tags = none := by
      rw [hotags, if_pos hCe]
    have hdisc2 : discoveredTags (contactToJValue (buildContactPayload p D loc pat)) pat
        = [] := by
      unfold discoveredTags
      rw [repick_tags_none _ hot, hpat2]
      rfl
    show (dedupFirst (prependDefaults D (discoveredTags
      (contactToJValue (buildContactPayload p D loc pat)) pat))).filter jsTruthy = _
    rw [hdisc2, hCnil]
    exact collectTags_empty_propagate D (discoveredTags p pat) (hCdef ▸ hCnil)
  · have hsome : (buildContactPayload p D loc pat).tags = some (collectTags p D pat) := by
      rw [hotags, if_neg hCe]
    have hCpw : (collectTags p D pat).Pairwise
        (fun a b => jsSameValueZero a b = false) :=
      (pairwise_svz_dedupFirst _).filter _
    have hCtruthy : ∀ x ∈ collectTags p D pat, jsTruthy x = true := by
      intro x hx
      rw [hCdef] at hx
      exact (List.mem_filter.mp hx).2
    have hCmemD : ∀ d ∈ D, jsTruthy (JValue.vStr d) = true →
        JValue.vStr d ∈ collectTags p D pat := by
      intro d hd htr
      rw [hCdef]
      exact List.mem_filter.mpr
        ⟨(mem_dedupFirst _ _).mpr (mem_prependDefaults_default d D _ hd), htr⟩
    have hCshape : ∀ x ∈ collectTags p D pat, ∃ s, x = JValue.vStr s := by
      intro x hx
      rw [hCdef] at hx
      have hx2 := (mem_dedupFirst x _).mp (List.mem_filter.mp hx).1
      rcases mem_prependDefaults_cases x D _ hx2 with h | ⟨d, _, hxd⟩
      · obtain ⟨s, hs, _⟩ := discoveredTags_shape p pat htags x h
        exact ⟨s, hs⟩
      · exact ⟨d, hxd⟩
    by_cases hts : jsTrim (jsToString (JValue.vArr (collectTags p D pat))) ≠ ""
    · have hdisc2 : discoveredTags (contactToJValue (buildContactPayload p D loc pat)) pat
          = collectTags p D pat := by
        unfold discoveredTags
        rw [repick_tags_some _ _ hsome, if_pos hts, hpat2]
        simp [ensureArrayTags]
      show (dedupFirst (prependDefaults D (discoveredTags
        (contactToJValue (buildContactPayload p D loc pat)) pat))).filter jsTruthy = _
      rw [hdisc2]
      exact collectTags_fix D _ hCpw hCtruthy hCmemD
    · have hts' : jsTrim (jsToString (JValue.vArr (collectTags p D pat))) = "" :=
        not_ne_iff.mp hts
      have hdisc2 : discoveredTags (contactToJValue (buildContactPayload p D loc pat)) pat
          = [] := by
        unfold discoveredTags
        rw [repick_tags_some _ _ hsome, if_neg hts, hpat2]
        rfl
      have hall : ∀ y ∈ discoveredTags p pat, y = JValue.vStr "" := by
        cases hC0 : collectTags p D pat with
        | nil => exact absurd (List.isEmpty_iff.mpr hC0) hCe
        | cons x rest =>
          cases rest with
          | cons z zs =>
            rw [hC0] at hts'
            exact absurd hts' (comma_in_jsToStringList x z zs)
          | nil =>
            obtain ⟨s, hxs⟩ := hCshape x (hC0 ▸ List.mem_cons_self _ _)
            have hstrim : jsTrim s = "" := by
              rw [hC0, hxs] at hts'
              exact hts'
            have hsne : s ≠ "" := by
              have := hCtruthy x (hC0 ▸ List.mem_cons_self _ _)
              rw [hxs] at this
              simpa [jsTruthy] using this
            intro y hy
            obtain ⟨t, hyt, htt⟩ := discoveredTags_shape p pat htags y hy
            by_cases htne : t = ""
            · rw [hyt, htne]
            · exfalso
              have hyC : y ∈ collectTags p D pat := by
                rw [hCdef]
                refine List.mem_filter.mpr
                  ⟨(mem_dedupFirst _ _).mpr (mem_prependDefaults_of_mem _ D _ hy), ?_⟩
                rw [hyt]
                simpa [jsTruthy] using htne
              rw [hC0, List.mem_singleton, hxs, hyt] at hyC
              have hts2 : t = s := by injection hyC
              rw [hts2, hstrim] at htt
              exact hsne (hts2 ▸ htt.symm)
      show (dedupFirst (prependDefaults D (discoveredTags
        (contactToJValue (buildContactPayload p D loc pat)) pat))).filter jsTruthy = _
      rw [hdisc2, hCdef]
      exact (collectTags_falsyTail D (discoveredTags p pat) hall).symm

theorem keepTruthy_pick_spec (payload : JValue) (paths : List String) :
    ∀ v, keepTruthy (pick payload paths) = some v →
      jsTruthy v = true ∧ v ≠ JValue.vNull ∧ jsTrim (jsToString v) ≠ "" := by
  intro v h
  obtain ⟨hp, ht⟩ := keepTruthy_some _ _ h
  obtain ⟨hn, hs⟩ := pick_some_spec payload paths v hp
  exact ⟨ht, hn, hs⟩

/-- C6 (amended): buildContactPayload is idempotent on its own output
provided (a) the payload's resolved tags value is not an array (an array
of non-string or falsy entries can survive the first pass yet stringify
to whitespace and be dropped by the second; an absent value, a string,
or any other primitive — which contributes no tags on both passes — is
fine), and (b) the supplied key pattern, when present, matches none of
the six output field names (a pattern matching an output key can
re-extract a field of the first result as a fresh tag).  The
counterexample c6_counterexample records that the unrestricted claim is
false. -/
theorem c6_normalize_idempotent_amended (p : JValue) (D : List String)
    (loc : Option String) (pat : Option (String → Bool))
    (htags : ∀ xs, pick p ["tags", "contact.tags"] ≠ some (JValue.vArr xs))
    (hpat : ∀ f, pat = some f →
      (f "email" = false ∧ f "phone" = false ∧ f "firstName" = false ∧
       f "lastName" = false ∧ f "tags" = false ∧ f "locationId" = false)) :
    buildContactPayload (contactToJValue (buildContactPayload p D loc pat)) D loc pat =
      buildContactPayload p D loc pat := by
  refine contact_ext _ _ ?_ ?_ ?_ ?_ ?_ ?_
  · rw [build_email_def]
    exact repick_email _ (fun v hv => keepTruthy_pick_spec p _ v hv)
  · rw [build_phone_def]
    exact repick_phone _ (fun v hv => keepTruthy_pick_spec p _ v hv)
  · rw [build_firstName_def]
    exact repick_firstName _ (fun v hv => keepTruthy_pick_spec p _ v hv)
  · rw [build_lastName_def]
    exact repick_lastName _ (fun v hv => keepTruthy_pick_spec p _ v hv)
  · rw [build_tags_def, build_tags_def, collectTags_toJV p D loc pat htags hpat]
  · rw [build_locationId_def, build_locationId_def]

theorem pick_cons_accept (payload : JValue) (q : String) (ps : List String) (s : String)
    (hget : getPath payload q = some (JValue.vStr s)) (hs : jsTrim s ≠ "") :
    pick payload (q :: ps) = some (JValue.vStr s) := by
  simp only [pick, hget]
  exact if_pos ⟨fun hcon => JValue.noConfusion hcon, hs⟩

theorem pick_cons_skip_none (payload : JValue) (q : String) (ps : List String)
    (hget : getPath payload q = none) :
    pick payload (q :: ps) = pick payload ps := by
  simp only [pick, hget]

theorem keepTruthy_vStr (s : String) (hsne : s ≠ "") :
    keepTruthy (some (JValue.vStr s)) = some (JValue.vStr s) := by
  simp [keepTruthy, jsTruthy, hsne]

/-!
## Claim theorems
-/

/-- C1: pick resolves each contact field by walking its ordered alias
paths and returning the first value that is defined, non-null and not
whitespace-only (the findSome? characterization), and in particular a
logical email carried under the flat alias, the contact-nested alias or
the contact.email_address alias resolves to the same value, with the
flat alias taking precedence when several are present. -/
theorem c1_pick_resolution (payload : JValue) (paths : List String) (s t : String)
    (hs : jsTrim s ≠ "") :
    (pick payload paths = paths.findSome? (fun q => pickAccept (getPath payload q))) ∧
    (buildContactPayload (JValue.vObj [("email", JValue.vStr s)])).email =
      some (JValue.vStr s) ∧
    (buildContactPayload
      (JValue.vObj [("contact", JValue.vObj [("email", JValue.vStr s)])])).email =
      some (JValue.vStr s) ∧
    (buildContactPayload
      (JValue.vObj [("contact", JValue.vObj [("email_address", JValue.vStr s)])])).email =
      some (JValue.vStr s) ∧
    (buildContactPayload
      (JValue.vObj [("email", JValue.vStr s),
        ("contact", JValue.vObj [("email", JValue.vStr t)])])).email =
      some (JValue.vStr s) := by
  have hsne : s ≠ "" := by
    intro h
    exact hs (by rw [h]; rfl)
  refine ⟨pick_eq_findSome payload paths, ?_, ?_, ?_, ?_⟩
  · have h1 : getPath (JValue.vObj [("email", JValue.vStr s)]) "email" =
        some (JValue.vStr s) := rfl
    rw [build_email_def, pick_cons_accept _ "email" _ s h1 hs, keepTruthy_vStr s hsne]
  · have h1 : getPath (JValue.vObj [("contact", JValue.vObj [("email", JValue.vStr s)])])
        "email" = none := rfl
    have h2 : getPath (JValue.vObj [("contact", JValue.vObj [("email", JValue.vStr s)])])
        "contact.email" = some (JValue.vStr s) := rfl
    rw [build_email_def, pick_cons_skip_none _ "email" _ h1,
      pick_cons_accept _ "contact.email" _ s h2 hs, keepTruthy_vStr s hsne]
  · have h1 : getPath
        (JValue.vObj [("contact", JValue.vObj [("email_address", JValue.vStr s)])])
        "email" = none := rfl
    have h2 : getPath
        (JValue.vObj [("contact", JValue.vObj [("email_address", JValue.vStr s)])])
        "contact.email" = none := rfl
    have h3 : getPath
        (JValue.vObj [("contact", JValue.vObj [("email_address", JValue.vStr s)])])
        "contact.email_address" = some (JValue.vStr s) := rfl
    rw [build_email_def, pick_cons_skip_none _ "email" _ h1,
      pick_cons_skip_none _ "contact.email" _ h2,
      pick_cons_accept _ "contact.email_address" _ s h3 hs, keepTruthy_vStr s hsne]
  · have h1 : getPath
        (JValue.vObj [("email", JValue.vStr s),
          ("contact", JValue.vObj [("email", JValue.vStr t)])]) "email" =
        some (JValue.vStr s) := rfl
    rw [build_email_def, pick_cons_accept _ "email" _ s h1 hs, keepTruthy_vStr s hsne]

/-- C1 witness: the resolution facts at a concrete email. -/
theorem c1_witness :
    jsTrim "x@y.com" ≠ "" ∧
    ((pick (JValue.vObj [("foo", JValue.vStr "1")]) ["email", "contact.email"] =
      (["email", "contact.email"]).findSome?
        (fun q => pickAccept (getPath (JValue.vObj [("foo", JValue.vStr "1")]) q))) ∧
    (buildContactPayload (JValue.vObj [("email", JValue.vStr "x@y.com")])).email =
      some (JValue.vStr "x@y.com") ∧
    (buildContactPayload
      (JValue.vObj [("contact", JValue.vObj [("email", JValue.vStr "x@y.com")])])).email =
      some (JValue.vStr "x@y.com") ∧
    (buildContactPayload
      (JValue.vObj [("contact",
        JValue.vObj [("email_address", JValue.vStr "x@y.com")])])).email =
      some (JValue.vStr "x@y.com") ∧
    (buildContactPayload
      (JValue.vObj [("email", JValue.vStr "x@y.com"),
        ("contact", JValue.vObj [("email", JValue.vStr "other@y.com")])])).email =
      some (JValue.vStr "x@y.com")) :=
  ⟨by decide,
    c1_pick_resolution (JValue.vObj [("foo", JValue.vStr "1")])
      ["email", "contact.email"] "x@y.com" "other@y.com" (by decide)⟩

/-- C2 counterexample: with defaultTags = ["a"] and inbound tags "x,a",
the code's prepend loop skips "a" because it is already among the
discovered tags, leaving ["x","a"]; the claimed description — prepend
the defaultTags ahead, then deduplicate keeping first occurrences —
would give ["a","x"]. -/
theorem c2_counterexample :
    (buildContactPayload (JValue.vObj [("tags", JValue.vStr "x,a")]) ["a"] none none).tags =
      some [JValue.vStr "x", JValue.vStr "a"] ∧
    specCombineTags ["a"] (discoveredTags (JValue.vObj [("tags", JValue.vStr "x,a")]) none) =
      [JValue.vStr "a", JValue.vStr "x"] ∧
    some (specCombineTags ["a"]
        (discoveredTags (JValue.vObj [("tags", JValue.vStr "x,a")]) none)) ≠
      (buildContactPayload (JValue.vObj [("tags", JValue.vStr "x,a")]) ["a"] none none).tags :=
  ⟨by decide, by decide, by decide⟩

/-- C2 (amended): the final tag list is obtained by prepending only those
defaultTags that are not already among the discovered tags (keeping the
last occurrence of any defaultTag duplicated within defaultTags, hence
preserving defaultTags' relative order when it is duplicate-free), then
deduplicating the combined sequence preserving first occurrences under
the Set's SameValueZero equality (value equality on primitive tags;
arrays and objects compare by reference, and coming from a fresh JSON
parse they never alias, so structurally equal non-primitives are never
merged), then dropping falsy entries; the field is omitted exactly when
the result is empty.  The claim's concrete instance holds: with empty
defaultTags and tags "a, b ,a" the result is exactly ["a","b"]. -/
theorem c2_tags_pipeline (p : JValue) (D : List String) (loc : Option String)
    (pat : Option (String → Bool)) :
    ((buildContactPayload p D loc pat).tags =
      (if (collectTags p D pat).isEmpty then none else some (collectTags p D pat))) ∧
    (collectTags p D pat =
      (dedupFirst ((((D.map JValue.vStr).filter
          (fun x => x ∉ discoveredTags p pat)).dedup) ++ discoveredTags p pat)).filter
        jsTruthy) ∧
    ((buildContactPayload (JValue.vObj [("tags", JValue.vStr "a, b ,a")])).tags =
      some [JValue.vStr "a", JValue.vStr "b"]) := by
  refine ⟨build_tags_def p D loc pat, ?_, by decide⟩
  show (dedupFirst (prependDefaults D (discoveredTags p pat))).filter jsTruthy = _
  rw [prependDefaults_eq_dedup_filter]

/-- C10 counterexample: with inbound tags [["x"],["x"]] the handler
emits a tag list holding the same one-element array twice — the JS Set
compares objects by reference, the two arrays come from a fresh JSON
parse and never alias, so both survive deduplication and the emitted
list has a structural duplicate; the claimed unconditional
duplicate-freeness is false. -/
theorem c10_counterexample :
    (buildContactPayload (JValue.vObj [("tags",
        JValue.vArr [JValue.vArr [JValue.vStr "x"],
          JValue.vArr [JValue.vStr "x"]])])).tags =
      some [JValue.vArr [JValue.vStr "x"], JValue.vArr [JValue.vStr "x"]] ∧
    ¬ ([JValue.vArr [JValue.vStr "x"],
        JValue.vArr [JValue.vStr "x"]] : List JValue).Nodup :=
  ⟨by decide, by decide⟩

/-- C10 (amended): whenever buildContactPayload emits a tags field the
list is non-empty, free of empty strings, and pairwise distinct under
SameValueZero — the equality the deduplicating Set applies, so primitive
tags appear at most once while structurally equal arrays or objects,
distinct references to the Set, may repeat (c10_counterexample); the
field is omitted exactly when the final pipeline result is empty. -/
theorem c10_tags_invariant (p : JValue) (D : List String) (loc : Option String)
    (pat : Option (String → Bool)) :
    ((buildContactPayload p D loc pat).tags = none ↔ collectTags p D pat = []) ∧
    (∀ l, (buildContactPayload p D loc pat).tags = some l →
      l ≠ [] ∧ l.Pairwise (fun a b => jsSameValueZero a b = false) ∧
        JValue.vStr "" ∉ l) := by
  constructor
  · rw [build_tags_def]
    by_cases he : (collectTags p D pat).isEmpty
    · simp [if_pos he, List.isEmpty_iff.mp he]
    · simp only [if_neg he]
      constructor
      · intro hc; cases hc
      · intro hc; exact absurd (List.isEmpty_iff.mpr hc) he
  · intro l hl
    rw [build_tags_def] at hl
    by_cases he : (collectTags p D pat).isEmpty
    · rw [if_pos he] at hl; cases hl
    · rw [if_neg he] at hl
      have hel : collectTags p D pat = l := by injection hl
      subst hel
      refine ⟨fun hc => he (List.isEmpty_iff.mpr hc),
        (pairwise_svz_dedupFirst _).filter _, ?_⟩
      intro hmem
      have := (List.mem_filter.mp hmem).2
      simp [jsTruthy] at this

/-- C10 witness: at a concrete payload the tags field is present and
satisfies the amended invariant. -/
theorem c10_witness :
    (buildContactPayload (JValue.vObj [("tags", JValue.vStr "a")])).tags =
      some [JValue.vStr "a"] ∧
    ([JValue.vStr "a"] ≠ [] ∧
      ([JValue.vStr "a"] : List JValue).Pairwise
        (fun a b => jsSameValueZero a b = false) ∧
      JValue.vStr "" ∉ [JValue.vStr "a"]) :=
  ⟨by decide,
    (c10_tags_invariant (JValue.vObj [("tags", JValue.vStr "a")]) [] none none).2
      [JValue.vStr "a"] (by decide)⟩

/-- C7 counterexample: the key "foo" matches the pattern and its value
" " is truthy, yet the result carries no tags field at all — the trimmed
value is the empty string and the final filter drops it, so it does not
appear as an extra tag. -/
theorem c7_counterexample :
    jsTruthy (JValue.vStr " ") = true ∧
    (fun k => k == "foo") "foo" = true ∧
    (buildContactPayload (JValue.vObj [("email", JValue.vStr "e"), ("foo", JValue.vStr " ")])
      [] none (some (fun k => k == "foo"))).tags = none :=
  ⟨by decide, by decide, by decide⟩

/-- C7 (amended): when a pattern is supplied, every top-level key whose
name matches it and whose value is truthy contributes String(value).trim()
as an extra tag of the normalized result, provided that trimmed value is
non-empty (empty-after-trim contributions are dropped by the final
filter; duplicates are merged by the deduplication). -/
theorem c7_pattern_tags (fs : List (String × JValue)) (D : List String)
    (loc : Option String) (test : String → Bool) (k : String) (v : JValue)
    (hmem : (k, v) ∈ fs) (htr : jsTruthy v = true) (htest : test k = true)
    (hne : jsTrim (jsToString v) ≠ "") :
    ∃ l, (buildContactPayload (JValue.vObj fs) D loc (some test)).tags = some l ∧
      JValue.vStr (jsTrim (jsToString v)) ∈ l := by
  have hx : JValue.vStr (jsTrim (jsToString v)) ∈
      discoveredTags (JValue.vObj fs) (some test) := by
    unfold discoveredTags
    refine List.mem_append.mpr (Or.inr ?_)
    show _ ∈ extractedTags (JValue.vObj fs) test
    rw [extractedTags]
    refine List.mem_map.mpr ⟨(k, v), ?_, rfl⟩
    refine List.mem_filter.mpr ⟨?_, ?_⟩
    · simpa [jsEntries] using hmem
    · simp [htr, htest]
  have hmem2 : JValue.vStr (jsTrim (jsToString v)) ∈
      collectTags (JValue.vObj fs) D (some test) := by
    refine List.mem_filter.mpr
      ⟨(mem_dedupFirst _ _).mpr (mem_prependDefaults_of_mem _ D _ hx), ?_⟩
    simpa [jsTruthy] using hne
  have hnemp : ¬ (collectTags (JValue.vObj fs) D (some test)).isEmpty := by
    intro hce
    rw [List.isEmpty_iff.mp hce] at hmem2
    exact absurd hmem2 (List.not_mem_nil _)
  refine ⟨collectTags (JValue.vObj fs) D (some test), ?_, hmem2⟩
  rw [build_tags_def, if_neg hnemp]

/-- C7 witness: a concrete matching key with a truthy value surfaces its
trimmed value as a tag. -/
theorem c7_witness :
    ((("flag", JValue.vStr " yes ") ∈
      [("email", JValue.vStr "e"), ("flag", JValue.vStr " yes ")]) ∧
    jsTruthy (JValue.vStr " yes ") = true ∧
    (fun k => k == "flag") "flag" = true ∧
    jsTrim (jsToString (JValue.vStr " yes ")) ≠ "") ∧
    ∃ l, (buildContactPayload
        (JValue.vObj [("email", JValue.vStr "e"), ("flag", JValue.vStr " yes ")])
        [] none (some (fun k => k == "flag"))).tags = some l ∧
      JValue.vStr (jsTrim (jsToString (JValue.vStr " yes "))) ∈ l :=
  ⟨⟨by decide, by decide, by decide, by decide⟩,
    c7_pattern_tags [("email", JValue.vStr "e"), ("flag", JValue.vStr " yes ")] [] none
      (fun k => k == "flag") "flag" (JValue.vStr " yes ")
      (by decide) (by decide) (by decide) (by decide)⟩

/-- C6 counterexample: for the payload with tags ["", []] the first
normalization keeps the truthy empty array as the only tag, but the
re-normalized output drops the tags field entirely, because the logged
array stringifies to the empty string and pick rejects it — so
normalization is not idempotent on its own output in general. -/
theorem c6_counterexample :
    buildContactPayload (contactToJValue (buildContactPayload
        (JValue.vObj [("email", JValue.vStr "e"),
          ("tags", JValue.vArr [JValue.vStr "", JValue.vArr []])]) [] none none))
      [] none none ≠
    buildContactPayload
      (JValue.vObj [("email", JValue.vStr "e"),
        ("tags", JValue.vArr [JValue.vStr "", JValue.vArr []])]) [] none none := by
  decide

/-- C6 witness: idempotence at a concrete payload whose tags come as a
comma-separated string, with the default tag and location id of the
Account A route. -/
theorem c6_witness :
    (pick (JValue.vObj [("email", JValue.vStr "e"), ("tags", JValue.vStr "a,b")])
        ["tags", "contact.tags"] = some (JValue.vStr "a,b")) ∧
    buildContactPayload (contactToJValue (buildContactPayload
        (JValue.vObj [("email", JValue.vStr "e"), ("tags", JValue.vStr "a,b")])
        ["From Account A"] (some "L") none)) ["From Account A"] (some "L") none =
      buildContactPayload
        (JValue.vObj [("email", JValue.vStr "e"), ("tags", JValue.vStr "a,b")])
        ["From Account A"] (some "L") none :=
  ⟨by decide,
    c6_normalize_idempotent_amended
      (JValue.vObj [("email", JValue.vStr "e"), ("tags", JValue.vStr "a,b")])
      ["From Account A"] (some "L") none
      (by
        intro xs h
        have hp : pick (JValue.vObj [("email", JValue.vStr "e"),
            ("tags", JValue.vStr "a,b")]) ["tags", "contact.tags"] =
            some (JValue.vStr "a,b") := by decide
        rw [hp] at h
        exact JValue.noConfusion (Option.some.inj h))
      (fun f hf => Option.noConfusion hf)⟩

/-- C3: a payload in which neither email nor phone resolves at any alias
is answered with a client error before any outbound call: the
src/server.js /webhook handler posts nothing and replies 400 (401 only
when the shared-secret gate already rejected the request, and exactly
400 whenever that gate passes); the src/unnamed/part_000 /webhook
handler, which has no secret gate, replies 400 and posts nothing. -/
theorem c3_missing_identity_rejected (secret header query locId : Option String)
    (remoteA : Contact → Bool) (remoteP : GhlContact → Bool) (payload : JValue)
    (hemail : pick payload ["email", "contact.email", "contact.email_address"] = none)
    (hphone : pick payload ["phone", "contact.phone", "contact.phone_number"] = none)
    (hemailP : optTruthy (buildGhlContact payload).email = false)
    (hphoneP : optTruthy (buildGhlContact payload).phone = false) :
    ((handleWebhookA secret header query locId remoteA payload).outbound = [] ∧
     ((handleWebhookA secret header query locId remoteA payload).status = 400 ∨
      (handleWebhookA secret header query locId remoteA payload).status = 401) ∧
     (assertSharedSecret secret header query payload = true →
       (handleWebhookA secret header query locId remoteA payload).status = 400)) ∧
    ((handleWebhookP0 remoteP payload).status = 400 ∧
     (handleWebhookP0 remoteP payload).outbound = []) := by
  have hce : (buildContactPayload payload ["From Account A"] locId
      (some competencyCoachTest)).email = none := by
    rw [build_email_def, hemail]
    rfl
  have hcp : (buildContactPayload payload ["From Account A"] locId
      (some competencyCoachTest)).phone = none := by
    rw [build_phone_def, hphone]
    rfl
  constructor
  · cases ha : assertSharedSecret secret header query payload with
    | false =>
      have hres : handleWebhookA secret header query locId remoteA payload = ⟨401, []⟩ := by
        simp only [handleWebhookA, ha]
        rw [if_pos trivial]
      rw [hres]
      exact ⟨rfl, Or.inr rfl, fun hc => absurd hc (by simp)⟩
    | true =>
      have hres : handleWebhookA secret header query locId remoteA payload = ⟨400, []⟩ := by
        simp only [handleWebhookA, ha]
        rw [if_neg (by simp), if_pos (And.intro hce hcp)]
      rw [hres]
      exact ⟨rfl, Or.inl rfl, fun _ => rfl⟩
  · have hres : handleWebhookP0 remoteP payload = ⟨400, []⟩ := by
      simp only [handleWebhookP0]
      rw [if_pos (And.intro hemailP hphoneP)]
    rw [hres]
    exact ⟨rfl, rfl⟩

/-- C3 witness: a payload carrying neither email nor phone is rejected
with 400 and no outbound call by both handlers. -/
theorem c3_witness :
    (pick (JValue.vObj [("name", JValue.vStr "n")])
        ["email", "contact.email", "contact.email_address"] = none ∧
     pick (JValue.vObj [("name", JValue.vStr "n")])
        ["phone", "contact.phone", "contact.phone_number"] = none ∧
     optTruthy (buildGhlContact (JValue.vObj [("name", JValue.vStr "n")])).email = false ∧
     optTruthy (buildGhlContact (JValue.vObj [("name", JValue.vStr "n")])).phone = false) ∧
    (((handleWebhookA none none none none (fun _ => true)
        (JValue.vObj [("name", JValue.vStr "n")])).outbound = [] ∧
      ((handleWebhookA none none none none (fun _ => true)
        (JValue.vObj [("name", JValue.vStr "n")])).status = 400 ∨
       (handleWebhookA none none none none (fun _ => true)
        (JValue.vObj [("name", JValue.vStr "n")])).status = 401) ∧
      (assertSharedSecret none none none (JValue.vObj [("name", JValue.vStr "n")]) = true →
        (handleWebhookA none none none none (fun _ => true)
          (JValue.vObj [("name", JValue.vStr "n")])).status = 400)) ∧
     ((handleWebhookP0 (fun _ => true) (JValue.vObj [("name", JValue.vStr "n")])).status = 400 ∧
      (handleWebhookP0 (fun _ => true)
        (JValue.vObj [("name", JValue.vStr "n")])).outbound = [])) :=
  ⟨⟨by decide, by decide, by decide, by decide⟩,
    c3_missing_identity_rejected none none none none (fun _ => true) (fun _ => true)
      (JValue.vObj [("name", JValue.vStr "n")])
      (by decide) (by decide) (by decide) (by decide)⟩

/-- C9 counterexample: with configured secret "s", a wrong header value
"x" and the correct secret "s" in the body, the code compares only the
header (the first truthy source) and rejects the request with 401 —
although the body secret equals the configured value, the request does
not proceed, contradicting the claim as stated. -/
theorem c9_counterexample :
    bodySecret (JValue.vObj [("secret", JValue.vStr "s")]) = some (JValue.vStr "s") ∧
    assertSharedSecret (some "s") (some "x") none
      (JValue.vObj [("secret", JValue.vStr "s")]) = false ∧
    handleWebhookA (some "s") (some "x") none none (fun _ => true)
      (JValue.vObj [("secret", JValue.vStr "s"), ("email", JValue.vStr "e")]) = ⟨401, []⟩ :=
  ⟨by decide, by decide, by decide⟩

/-- C9 (amended): if no secret is configured (unset or empty) every
request proceeds past the gate; if a non-empty secret is configured, the
single value compared is the first truthy of header, query and body
secret — the request proceeds exactly when that value's string form
equals the configured secret, and otherwise (including when only a
lower-precedence source carries the right secret, or no truthy secret
is supplied) the handler replies 401 with no outbound call, before the
payload is examined further. -/
theorem c9_shared_secret (secret header query locId : Option String)
    (remote : Contact → Bool) (payload : JValue) :
    ((∀ c, secret = some c → c = "") →
      assertSharedSecret secret header query payload = true) ∧
    (∀ c, secret = some c → c ≠ "" →
      ((∀ v, incomingSecret header query payload = some v →
          (assertSharedSecret secret header query payload = true ↔ jsToString v = c)) ∧
       (incomingSecret header query payload = none →
          assertSharedSecret secret header query payload = false))) ∧
    (assertSharedSecret secret header query payload = false →
      handleWebhookA secret header query locId remote payload = ⟨401, []⟩) ∧
    (assertSharedSecret secret header query payload = true →
      (handleWebhookA secret header query locId remote payload).status ≠ 401) := by
  refine ⟨?_, ?_, ?_, ?_⟩
  · intro h
    cases hs : secret with
    | none => rfl
    | some c =>
      rw [assertSharedSecret, if_pos (h c hs)]
  · intro c hs hc
    subst hs
    constructor
    · intro v hv
      rw [assertSharedSecret, if_neg hc, hv]
      exact decide_eq_true_iff
    · intro hv
      rw [assertSharedSecret, if_neg hc, hv]
  · intro ha
    simp only [handleWebhookA, ha]
    rw [if_pos trivial]
  · intro ha
    simp only [handleWebhookA, ha]
    rw [if_neg (by simp)]
    by_cases hid : (buildContactPayload payload ["From Account A"] locId
        (some competencyCoachTest)).email = none ∧
        (buildContactPayload payload ["From Account A"] locId
          (some competencyCoachTest)).phone = none
    · rw [if_pos hid]
      simp
    · rw [if_neg hid]
      by_cases hr : remote (buildContactPayload payload ["From Account A"] locId
          (some competencyCoachTest)) = true
      · rw [if_pos hr]
        simp
      · rw [if_neg hr]
        simp

/-- C9 witness: a mismatched secret yields exactly 401 with no outbound
call. -/
theorem c9_witness :
    assertSharedSecret (some "s") (some "w") none (JValue.vObj []) = false ∧
    handleWebhookA (some "s") (some "w") none none (fun _ => true) (JValue.vObj []) =
      ⟨401, []⟩ :=
  ⟨by decide,
    (c9_shared_secret (some "s") (some "w") none none (fun _ => true)
      (JValue.vObj [])).2.2.1 (by decide)⟩

/-- C4: for a normalized marketing-platform contact with a truthy email,
the single-contact upsert first issues the search call — exact-match on
the email value, requesting exactly the contact's property names (a
fixed eight-name list), limited to one result — and then either a
partial update of the found record with response status "updated" and
that record's id, or a create call with response status "created" and
the newly assigned id. -/
theorem c4_single_upsert (remote : HsRemote) (body : JValue) (c : HSContact)
    (hc : c = normalizeHubSpotContact (if jsTruthy body then body else JValue.vObj []))
    (he : optTruthy c.email = true) :
    (handleGhlToHubspot remote body).httpStatus = 200 ∧
    (handleGhlToHubspot remote body).calls.head? =
      some (HsCall.search (c.email.getD JValue.vNull)
        ((hsPropertyList c).map Prod.fst) 1) ∧
    ((hsPropertyList c).map Prod.fst =
      ["email", "firstname", "lastname", "phone", "source",
       "investor_archetype_ppt_frequency", "investor_archetype_ppt_profile",
       "investor_archetype_free_ppt_frequency"]) ∧
    (∀ id, remote.found (c.email.getD JValue.vNull) = some id →
      handleGhlToHubspot remote body =
        ⟨200, some "updated", some id,
          [HsCall.search (c.email.getD JValue.vNull) ((hsPropertyList c).map Prod.fst) 1,
           HsCall.update id (hsPropertyList c)]⟩) ∧
    (remote.found (c.email.getD JValue.vNull) = none →
      handleGhlToHubspot remote body =
        ⟨200, some "created", some remote.newId,
          [HsCall.search (c.email.getD JValue.vNull) ((hsPropertyList c).map Prod.fst) 1,
           HsCall.create (hsPropertyList c)]⟩) := by
  subst hc
  have hne : ¬ (optTruthy (normalizeHubSpotContact
      (if jsTruthy body then body else JValue.vObj [])).email = false) := by
    rw [he]; simp
  refine ⟨?_, ?_, rfl, ?_, ?_⟩
  · simp only [handleGhlToHubspot]
    rw [if_neg hne]
    cases hfound : remote.found ((normalizeHubSpotContact
        (if jsTruthy body then body else JValue.vObj [])).email.getD JValue.vNull) <;>
      simp [hfound]
  · simp only [handleGhlToHubspot]
    rw [if_neg hne]
    cases hfound : remote.found ((normalizeHubSpotContact
        (if jsTruthy body then body else JValue.vObj [])).email.getD JValue.vNull) <;>
      simp [hfound]
  · intro id hid
    simp only [handleGhlToHubspot]
    rw [if_neg hne]
    simp [hid]
  · intro hid
    simp only [handleGhlToHubspot]
    rw [if_neg hne]
    simp [hid]

/-- C4 witness: with no existing record the sequence is search then
create with status "created"; the property list is the fixed eight. -/
theorem c4_witness :
    (normalizeHubSpotContact (JValue.vObj [("email", JValue.vStr "a@b")]) =
      normalizeHubSpotContact (if jsTruthy (JValue.vObj [("email", JValue.vStr "a@b")])
        then JValue.vObj [("email", JValue.vStr "a@b")] else JValue.vObj []) ∧
     optTruthy (normalizeHubSpotContact
       (JValue.vObj [("email", JValue.vStr "a@b")])).email = true) ∧
    handleGhlToHubspot ⟨fun _ => none, "7"⟩ (JValue.vObj [("email", JValue.vStr "a@b")]) =
      ⟨200, some "created", some "7",
        [HsCall.search ((normalizeHubSpotContact
            (JValue.vObj [("email", JValue.vStr "a@b")])).email.getD JValue.vNull)
          ((hsPropertyList (normalizeHubSpotContact
            (JValue.vObj [("email", JValue.vStr "a@b")]))).map Prod.fst) 1,
         HsCall.create (hsPropertyList (normalizeHubSpotContact
           (JValue.vObj [("email", JValue.vStr "a@b")])))]⟩ :=
  ⟨⟨rfl, by decide⟩,
    (c4_single_upsert ⟨fun _ => none, "7"⟩ (JValue.vObj [("email", JValue.vStr "a@b")])
      (normalizeHubSpotContact (JValue.vObj [("email", JValue.vStr "a@b")]))
      rfl (by decide)).2.2.2.2 rfl⟩

/-- C8 counterexample: the OperatingFrame marketing normalizer does not
substitute the empty string for an absent source field — it defaults the
Source property to "GHL Survey". -/
theorem c8_counterexample :
    (normalizeHubSpotContactOperatingFrame (JValue.vObj [])).Source =
      JValue.vStr "GHL Survey" ∧
    (normalizeHubSpotContactOperatingFrame (JValue.vObj [])).Source ≠ JValue.vStr "" :=
  ⟨by decide, by decide⟩

/-- C8 (amended): both marketing-platform normalizers emit a fixed
property-name set on every input; the baseline normalizer substitutes
the empty string for each absent non-email field, and the OperatingFrame
variant — whose fields fall back through the nested object
c = raw.contact ?? raw — does the same for firstname, lastname, phone,
FreeOperatingFrameFrequency and FreeOperatingFrameTest when the field is
absent at every alias, except Source, which defaults to "GHL Survey"
when absent at both its aliases. -/
theorem c8_fixed_properties (raw : JValue) :
    ((hsPropertyList (normalizeHubSpotContact raw)).map Prod.fst =
      ["email", "firstname", "lastname", "phone", "source",
       "investor_archetype_ppt_frequency", "investor_archetype_ppt_profile",
       "investor_archetype_free_ppt_frequency"]) ∧
    ((hsPropertyListOF (normalizeHubSpotContactOperatingFrame raw)).map Prod.fst =
      ["email", "firstname", "lastname", "phone", "Source",
       "FreeOperatingFrameFrequency", "FreeOperatingFrameTest"]) ∧
    (jsGetField raw "firstname" = none → jsGetField raw "firstName" = none →
      (normalizeHubSpotContact raw).firstname = JValue.vStr "") ∧
    (jsGetField raw "lastname" = none → jsGetField raw "lastName" = none →
      (normalizeHubSpotContact raw).lastname = JValue.vStr "") ∧
    (jsGetField raw "phone" = none →
      (normalizeHubSpotContact raw).phone = JValue.vStr "") ∧
    (jsGetField raw "source" = none →
      (normalizeHubSpotContact raw).source = JValue.vStr "") ∧
    (jsGetField raw "investor_archetype_ppt_frequency" = none →
      (normalizeHubSpotContact raw).investor_archetype_ppt_frequency = JValue.vStr "") ∧
    (jsGetField raw "investor_archetype_ppt_profile" = none →
      (normalizeHubSpotContact raw).investor_archetype_ppt_profile = JValue.vStr "") ∧
    (jsGetField raw "investor_archetype_free_ppt_frequency" = none →
      (normalizeHubSpotContact raw).investor_archetype_free_ppt_frequency =
        JValue.vStr "") ∧
    (jsGetField raw "source" = none →
      jsGetField (ofContactBase raw) "source" = none →
      (normalizeHubSpotContactOperatingFrame raw).Source = JValue.vStr "GHL Survey") ∧
    (jsGetField raw "firstname" = none → jsGetField raw "firstName" = none →
      jsGetField (ofContactBase raw) "first_name" = none →
      jsGetField (ofContactBase raw) "firstname" = none →
      (normalizeHubSpotContactOperatingFrame raw).firstname = JValue.vStr "") ∧
    (jsGetField raw "lastname" = none → jsGetField raw "lastName" = none →
      jsGetField (ofContactBase raw) "last_name" = none →
      jsGetField (ofContactBase raw) "lastname" = none →
      (normalizeHubSpotContactOperatingFrame raw).lastname = JValue.vStr "") ∧
    (jsGetField raw "phone" = none →
      jsGetField (ofContactBase raw) "phone" = none →
      (normalizeHubSpotContactOperatingFrame raw).phone = JValue.vStr "") ∧
    (jsGetField raw "free_operatingframe_frequency" = none →
      jsGetField (ofContactBase raw) "free_operatingframe_frequency" = none →
      jsGetField raw "FreeOperatingFrameFrequency" = none →
      jsGetField (ofContactBase raw) "FreeOperatingFrameFrequency" = none →
      (normalizeHubSpotContactOperatingFrame raw).FreeOperatingFrameFrequency =
        JValue.vStr "") ∧
    (jsGetField raw "free_operatingframe_test" = none →
      jsGetField (ofContactBase raw) "free_operatingframe_test" = none →
      jsGetField raw "FreeOperatingFrameTest" = none →
      jsGetField (ofContactBase raw) "FreeOperatingFrameTest" = none →
      (normalizeHubSpotContactOperatingFrame raw).FreeOperatingFrameTest =
        JValue.vStr "") := by
  refine ⟨rfl, rfl, ?_, ?_, ?_, ?_, ?_, ?_, ?_, ?_, ?_, ?_, ?_, ?_, ?_⟩
  · intro h1 h2
    simp [normalizeHubSpotContact, jsCoalesce, h1, h2]
  · intro h1 h2
    simp [normalizeHubSpotContact, jsCoalesce, h1, h2]
  · intro h1
    simp [normalizeHubSpotContact, jsCoalesce, h1]
  · intro h1
    simp [normalizeHubSpotContact, jsCoalesce, h1]
  · intro h1
    simp [normalizeHubSpotContact, jsCoalesce, h1]
  · intro h1
    simp [normalizeHubSpotContact, jsCoalesce, h1]
  · intro h1
    simp [normalizeHubSpotContact, jsCoalesce, h1]
  · intro h1 h2
    simp [normalizeHubSpotContactOperatingFrame, jsCoalesce, h1, h2]
  · intro h1 h2 h3 h4
    simp [normalizeHubSpotContactOperatingFrame, jsCoalesce, h1, h2, h3, h4]
  · intro h1 h2 h3 h4
    simp [normalizeHubSpotContactOperatingFrame, jsCoalesce, h1, h2, h3, h4]
  · intro h1 h2
    simp [normalizeHubSpotContactOperatingFrame, jsCoalesce, h1, h2]
  · intro h1 h2 h3 h4
    simp [normalizeHubSpotContactOperatingFrame, jsCoalesce, h1, h2, h3, h4]
  · intro h1 h2 h3 h4
    simp [normalizeHubSpotContactOperatingFrame, jsCoalesce, h1, h2, h3, h4]

/-- C8 witness: on the empty payload the baseline normalizer defaults
firstname to "", and the OperatingFrame normalizer defaults Source to
"GHL Survey", firstname to "" and FreeOperatingFrameTest to "". -/
theorem c8_witness :
    (jsGetField (JValue.vObj []) "firstname" = none ∧
     jsGetField (JValue.vObj []) "firstName" = none ∧
     jsGetField (JValue.vObj []) "source" = none ∧
     jsGetField (ofContactBase (JValue.vObj [])) "source" = none ∧
     jsGetField (ofContactBase (JValue.vObj [])) "first_name" = none ∧
     jsGetField (ofContactBase (JValue.vObj [])) "firstname" = none ∧
     jsGetField (JValue.vObj []) "FreeOperatingFrameTest" = none) ∧
    (normalizeHubSpotContact (JValue.vObj [])).firstname = JValue.vStr "" ∧
    (normalizeHubSpotContactOperatingFrame (JValue.vObj [])).Source =
      JValue.vStr "GHL Survey" ∧
    (normalizeHubSpotContactOperatingFrame (JValue.vObj [])).firstname =
      JValue.vStr "" ∧
    (normalizeHubSpotContactOperatingFrame (JValue.vObj [])).FreeOperatingFrameTest =
      JValue.vStr "" :=
  ⟨⟨by decide, by decide, by decide, by decide, by decide, by decide, by decide⟩,
   (c8_fixed_properties (JValue.vObj [])).2.2.1 (by decide) (by decide),
   (c8_fixed_properties (JValue.vObj [])).2.2.2.2.2.2.2.2.2.1
     (by decide) (by decide),
   (c8_fixed_properties (JValue.vObj [])).2.2.2.2.2.2.2.2.2.2.1
     (by decide) (by decide) (by decide) (by decide),
   (c8_fixed_properties (JValue.vObj [])).2.2.2.2.2.2.2.2.2.2.2.2.2.2
     (by decide) (by decide) (by decide) (by decide)⟩

theorem chunk_foldl {α : Type} (size : Nat) (f : Nat → List α) :
    ∀ (xs : List Nat) (acc : List (List α)),
      xs.foldl (fun a i => if i % size ≠ 0 then a else a ++ [f i]) acc =
        acc ++ (xs.filter (fun i => i % size = 0)).map f := by
  intro xs
  induction xs with
  | nil => intro acc; simp
  | cons i is ih =>
    intro acc
    rw [List.foldl_cons]
    by_cases hp : i % size = 0
    · rw [if_neg (fun hcon => hcon hp), ih,
        List.filter_cons_of_pos (by simpa using hp), List.map_cons, List.append_assoc]
      rfl
    · rw [if_pos hp, ih, List.filter_cons_of_neg (by simpa using hp)]

theorem chunk_eq_filter_map {α : Type} (arr : List α) (size : Nat) :
    chunk arr size =
      ((List.range arr.length).filter (fun i => i % size = 0)).map
        (fun i => (arr.drop i).take size) := by
  rw [chunk, chunk_foldl]
  rfl

theorem chunk_nil {α : Type} (size : Nat) : chunk ([] : List α) size = [] := rfl

theorem filter_mod_range_le (size k : Nat) (hk : k ≤ size) (h0 : 0 < k) :
    (List.range k).filter (fun i => i % size = 0) = [0] := by
  induction k with
  | zero => cases h0
  | succ n ih =>
    rw [List.range_succ, List.filter_append]
    by_cases hn : n = 0
    · subst hn
      simp
    · rw [ih (Nat.le_of_succ_le hk) (Nat.pos_of_ne_zero hn)]
      have hlt : n < size := hk
      have : n % size = n := Nat.mod_eq_of_lt hlt
      have hne : ¬ (n % size = 0) := by rw [this]; exact hn
      simp [hne]

theorem chunk_cons {α : Type} (arr : List α) (size : Nat) (hsz : 0 < size)
    (hne : arr ≠ []) :
    chunk arr size = arr.take size :: chunk (arr.drop size) size := by
  rw [chunk_eq_filter_map, chunk_eq_filter_map]
  by_cases hle : arr.length ≤ size
  · have hdrop : arr.drop size = [] := List.drop_eq_nil_of_le hle
    rw [hdrop]
    have h0 : 0 < arr.length := List.length_pos.mpr hne
    rw [filter_mod_range_le size arr.length hle h0]
    simp
  · push_neg at hle
    obtain ⟨m, hm⟩ : ∃ m, arr.length = size + m :=
      ⟨arr.length - size, by omega⟩
    rw [hm, List.range_add, List.filter_append]
    have h1 : (List.range size).filter (fun i => i % size = 0) = [0] :=
      filter_mod_range_le size size le_rfl hsz
    have h2 : ((List.range m).map (fun x => size + x)).filter (fun i => i % size = 0) =
        ((List.range m).filter (fun i => i % size = 0)).map (fun x => size + x) := by
      rw [List.filter_map]
      congr 1
      apply List.filter_congr
      intro i _
      simp [Function.comp, Nat.add_mod_left]
    rw [h1, h2, List.map_append]
    have h3 : ∀ i, ((arr.drop (size + i)).take size) =
        (((arr.drop size).drop i).take size) := by
      intro i
      rw [List.drop_drop, Nat.add_comm]
    have hlen : (arr.drop size).length = m := by
      rw [List.length_drop, hm]
      omega
    rw [hlen]
    simp only [List.map_map, List.map_cons, List.map_nil, List.drop_zero]
    rw [List.singleton_append]
    congr 1
    apply List.map_congr_left
    intro i _
    simp only [Function.comp]
    exact h3 i

theorem chunk_join_aux {α : Type} (size : Nat) (hsz : 0 < size) :
    ∀ (n : Nat) (arr : List α), arr.length ≤ n → (chunk arr size).flatten = arr := by
  intro n
  induction n with
  | zero =>
    intro arr h
    have : arr = [] := List.length_eq_zero.mp (Nat.le_zero.mp h)
    rw [this, chunk_nil]
    rfl
  | succ n ih =>
    intro arr h
    by_cases harr : arr = []
    · rw [harr, chunk_nil]; rfl
    · rw [chunk_cons arr size hsz harr, List.join_cons,
        ih (arr.drop size) (by rw [List.length_drop]; omega),
        List.take_append_drop]

theorem chunk_join {α : Type} (arr : List α) (size : Nat) (hsz : 0 < size) :
    (chunk arr size).flatten = arr :=
  chunk_join_aux size hsz arr.length arr le_rfl

theorem chunk_length_le {α : Type} (arr : List α) (size : Nat) :
    ∀ g ∈ chunk arr size, g.length ≤ size := by
  intro g hg
  rw [chunk_eq_filter_map] at hg
  rcases List.mem_map.mp hg with ⟨i, _, rfl⟩
  rw [List.length_take]
  exact Nat.min_le_left _ _

theorem chunk_250 {α : Type} (arr : List α) (h : arr.length = 250) :
    (chunk arr 100).map List.length = [100, 100, 50] := by
  have h1 : arr ≠ [] := by
    intro h0
    rw [h0] at h
    cases h
  rw [chunk_cons arr 100 (by norm_num) h1]
  have hd1 : (arr.drop 100).length = 150 := by
    rw [List.length_drop, h]
  have h2 : arr.drop 100 ≠ [] := by
    intro h0
    rw [h0] at hd1
    cases hd1
  rw [chunk_cons _ 100 (by norm_num) h2]
  have hd2 : ((arr.drop 100).drop 100).length = 50 := by
    rw [List.length_drop, hd1]
  have h3 : (arr.drop 100).drop 100 ≠ [] := by
    intro h0
    rw [h0] at hd2
    cases hd2
  rw [chunk_cons _ 100 (by norm_num) h3]
  have hd3 : (((arr.drop 100).drop 100).drop 100) = [] := by
    apply List.drop_eq_nil_of_le
    rw [hd2]
    norm_num
  rw [hd3, chunk_nil]
  simp [List.length_take, h, hd1, hd2]

theorem issueBatches_spec (ok : List (String × List (String × Option JValue)) → Bool) :
    ∀ gs : List (List JValue),
      ((issueBatches ok gs).2 = true →
        (issueBatches ok gs).1 = gs.map batchInputsOf ∧
          ∀ g ∈ gs, ok (batchInputsOf g) = true) ∧
      ((issueBatches ok gs).2 = false →
        ∃ pre g post, gs = pre ++ g :: post ∧
          (∀ q ∈ pre, ok (batchInputsOf q) = true) ∧ ok (batchInputsOf g) = false ∧
          (issueBatches ok gs).1 = (pre ++ [g]).map batchInputsOf) := by
  intro gs
  induction gs with
  | nil =>
    constructor
    · intro _
      exact ⟨rfl, by simp⟩
    · intro h
      simp [issueBatches] at h
  | cons g rest ih =>
    by_cases hok : ok (batchInputsOf g) = true
    · have heq : issueBatches ok (g :: rest) =
          (batchInputsOf g :: (issueBatches ok rest).1, (issueBatches ok rest).2) := by
        simp [issueBatches, hok]
      constructor
      · intro h2
        rw [heq] at h2
        obtain ⟨hfst, hall⟩ := ih.1 h2
        rw [heq]
        refine ⟨by rw [hfst]; rfl, ?_⟩
        intro q hq
        rcases List.mem_cons.mp hq with hq | hq
        · rw [hq]; exact hok
        · exact hall q hq
      · intro h2
        rw [heq] at h2
        obtain ⟨pre, gg, post, hsplit, hpre, hgg, hfst⟩ := ih.2 h2
        refine ⟨g :: pre, gg, post, by rw [hsplit, List.cons_append], ?_, hgg, ?_⟩
        · intro q hq
          rcases List.mem_cons.mp hq with hq | hq
          · rw [hq]; exact hok
          · exact hpre q hq
        · rw [heq, hfst, List.cons_append]
          rfl
    · have heq : issueBatches ok (g :: rest) = ([batchInputsOf g], false) := by
        simp [issueBatches, hok]
      constructor
      · intro h2
        rw [heq] at h2
        cases h2
      · intro _
        refine ⟨[], g, rest, rfl, by simp, Bool.eq_false_iff.mpr hok, ?_⟩
        rw [heq]
        rfl

/-- C5: the batch upsert partitions the contacts into consecutive groups
of at most 100 preserving order (250 contacts give groups of sizes 100,
100, 50 in that order), issues one upsert-by-email call per group in
list order, and on success forwards every group while on a failure the
calls issued are exactly the groups before the failing one plus the
failing group itself — groups after it are never issued.  The handler
forwards exactly these calls and maps overall success to 200. -/
theorem c5_batch_upsert (items : List JValue)
    (ok : List (String × List (String × Option JValue)) → Bool) :
    ((chunk items 100).flatten = items) ∧
    (∀ g ∈ chunk items 100, g.length ≤ 100) ∧
    (items.length = 250 → (chunk items 100).map List.length = [100, 100, 50]) ∧
    ((issueBatches ok (chunk items 100)).2 = true →
      (issueBatches ok (chunk items 100)).1 = (chunk items 100).map batchInputsOf) ∧
    ((issueBatches ok (chunk items 100)).2 = false →
      ∃ pre g post, chunk items 100 = pre ++ g :: post ∧
        (∀ q ∈ pre, ok (batchInputsOf q) = true) ∧ ok (batchInputsOf g) = false ∧
        (issueBatches ok (chunk items 100)).1 = (pre ++ [g]).map batchInputsOf) ∧
    (∀ body, jsGetField body "contacts" = some (JValue.vArr items) → items ≠ [] →
      (handleGhlToHubspotBatch ok body).outbound = (issueBatches ok (chunk items 100)).1 ∧
      ((handleGhlToHubspotBatch ok body).status = 200 ↔
        (issueBatches ok (chunk items 100)).2 = true)) := by
  refine ⟨chunk_join items 100 (by norm_num), chunk_length_le items 100,
    fun h => chunk_250 items h,
    fun h => ((issueBatches_spec ok (chunk items 100)).1 h).1,
    fun h => (issueBatches_spec ok (chunk items 100)).2 h, ?_⟩
  intro body hbody hne
  have hitems : (match jsGetField body "contacts" with
      | some (JValue.vArr l) => l
      | _ => []) = items := by
    rw [hbody]
  have hemp : ¬ items.isEmpty := by
    intro hce
    exact hne (List.isEmpty_iff.mp hce)
  simp only [handleGhlToHubspotBatch, hitems]
  rw [if_neg (by simpa using hemp)]
  constructor
  · rfl
  · cases hb : (issueBatches ok (chunk items 100)).2 with
    | true => simp
    | false => simp

set_option maxRecDepth 8192 in
/-- C5 witness: 250 contacts are split into groups of 100, 100 and 50 in
order. -/
theorem c5_witness :
    (List.replicate 250 JValue.vNull).length = 250 ∧
    (chunk (List.replicate 250 JValue.vNull) 100).map List.length = [100, 100, 50] :=
  ⟨by decide,
    (c5_batch_upsert (List.replicate 250 JValue.vNull) (fun _ => true)).2.2.1 (by decide)⟩
